import Mathlib

/-!
Shallow embedding of `oxasl_multite/api.py` (the MultiTE fit orchestrator).

The module under verification is pure orchestration: it validates a
precondition on the ASL dataset, normalises the dataset (temporal
difference plus a fixed reordering), assembles an option mapping for the
external Fabber inference engine, invokes it, writes the returned outputs
into a hierarchical mutable workspace, and triggers downstream output and
registration routines.

The embedding models:
  * the ASL dataset container (volumes plus timing metadata) with the
    three operations the module uses (`is_var_repeats`, `diff`, `reorder`);
  * the oxasl workspace as a flat store keyed by attribute paths, with
    sub-namespace creation and parent-fallback attribute lookup
    (sub-workspaces inherit attributes from their parents, and a missing
    attribute reads as Python `None`);
  * Python dictionaries as insertion-ordered association lists with
    last-write-wins update, matching `dict.__setitem__` and `dict.update`;
  * the external collaborators (the Fabber call, `fit_init`, and the
    three `oxford_asl` output routines) as function parameters returning a
    new state and either success or a propagated Python exception;
  * an event trace recording, in execution order, the observable actions
    of the orchestrator (log writes, the repeat-count check, the
    diff/reorder normalisation, sub-namespace creation, collaborator
    invocations), which lets temporal claims be stated directly.
-/

/-- Abstract ASL dataset: per-volume data plus timing metadata, modelling the
external `oxasl` `AslImage` container used by `api.py`.  Volume data and the
timing values are abstracted to integers; `order` is the acquisition ordering
tag carried by the container. -/
structure ASLData where
  vols : List Int
  tis : List Int
  tes : List Int
  taus : List Int
  rpts : List Nat
  order : String
deriving DecidableEq, Repr

/-- Whether the number of repeats varies across the dataset (collaborator
method `AslImage.is_var_repeats`): true when not all entries of `rpts`
agree. -/
def ASLData.is_var_repeats (d : ASLData) : Bool :=
  match d.rpts with
  | [] => false
  | r :: rest => rest.any (fun x => x != r)

/-- Pairwise temporal difference of the volume list: adjacent label/control
pairs are subtracted, halving the volume count. -/
def diffPairs : List Int → List Int
  | a :: b :: rest => (b - a) :: diffPairs rest
  | _ => []

/-- Temporal-difference operation (collaborator method `AslImage.diff`):
label/control subtraction on adjacent volume pairs; timing metadata and
repeat counts are unchanged. -/
def ASLData.diff (d : ASLData) : ASLData :=
  { d with vols := diffPairs d.vols }

/-- Reordering operation (collaborator method `AslImage.reorder`): the module
only depends on the resulting ordering tag, so the operation is modelled as
setting the ordering tag of the container to `out_order`. -/
def ASLData.reorder (d : ASLData) (out_order : String) : ASLData :=
  { d with order := out_order }

/-- Attribute path inside the workspace hierarchy: the list of sub-namespace
names from the root down to the namespace holding the attribute. -/
abbrev WPath := List String

/-- Python values stored in workspace attributes and option mappings.  The
`null` constructor is Python `None`; `ws` is a reference to a sub-workspace
(identified by its path); `data` is an ASL dataset; `img` is an abstract
image or array output; `dict` is a string-keyed Python dictionary. -/
inductive Value where
  | null : Value
  | str : String → Value
  | bool : Bool → Value
  | int : Int → Value
  | intList : List Int → Value
  | data : ASLData → Value
  | ws : WPath → Value
  | img : String → Value
  | dict : List (String × Value) → Value

/-- Option mapping passed to the inference engine, and also the type of the
result mapping it returns: an insertion-ordered Python dictionary. -/
abbrev OptMap := List (String × Value)

/-- Result mapping returned by the Fabber call. -/
abbrev ResMap := List (String × Value)

/-- Python truthiness of a stored value, used for `if wsp.multite_init:`. -/
def Value.truthy : Value → Bool
  | .null => false
  | .bool b => b
  | .int n => n != 0
  | .str s => s != ""
  | .intList l => !l.isEmpty
  | .dict m => !m.isEmpty
  | .data _ => true
  | .ws _ => true
  | .img _ => true

/-- Whether a value is Python `None`. -/
def Value.isNull : Value → Bool
  | .null => true
  | _ => false

/-- Workspace state: a flat attribute store keyed by full attribute paths
(namespace path plus attribute name), the list of items registered for
persistence via `set_item`, and the list of sub-namespaces created so far.
Newer attribute writes are prepended, so lookup finds the latest write. -/
structure WSState where
  attrs : List (WPath × Value)
  saved : List (WPath × String × Value)
  subsCreated : List WPath

/-- Attribute lookup walking from the namespace `rp.reverse` up through its
ancestors (oxasl sub-workspaces fall back to their parent when an attribute
is not set locally); a miss at the root reads as Python `None`.  The path is
consumed in reversed form so the recursion is structural. -/
def wsGetattrRev (attrs : List (WPath × Value)) (k : String) : WPath → Value
  | [] =>
    match attrs.find? (fun kv => kv.1 = ([k] : WPath)) with
    | some kv => kv.2
    | none => .null
  | a :: rest =>
    match attrs.find? (fun kv => kv.1 = (a :: rest).reverse ++ [k]) with
    | some kv => kv.2
    | none => wsGetattrRev attrs k rest

/-- Attribute read `wsp.k` on the sub-workspace at path `p`. -/
def wsGetattr (s : WSState) (p : WPath) (k : String) : Value :=
  wsGetattrRev s.attrs k p.reverse

/-- Attribute write `wsp.k = v` on the sub-workspace at path `p`. -/
def wsSetattrSt (s : WSState) (p : WPath) (k : String) (v : Value) : WSState :=
  { s with attrs := (p ++ [k], v) :: s.attrs }

/-- Sub-namespace creation `wsp.sub(name)`: records the new namespace and
binds it to the attribute `name` of its parent. -/
def wsSubSt (s : WSState) (p : WPath) (name : String) : WSState :=
  { s with
    attrs := (p ++ [name], .ws (p ++ [name])) :: s.attrs
    subsCreated := (p ++ [name]) :: s.subsCreated }

/-- Persisted-item registration `wsp.set_item(k, v, save_fn)`: the value is
stored as an attribute and additionally registered for persistence. -/
def set_item (s : WSState) (p : WPath) (k : String) (v : Value) : WSState :=
  { s with
    attrs := (p ++ [k], v) :: s.attrs
    saved := (p, k, v) :: s.saved }

/-- Lookup in a Python dictionary (`d[k]` when present). -/
def dictGet? (d : OptMap) (k : String) : Option Value :=
  (d.find? (fun kv => kv.1 = k)).map (fun kv => kv.2)

/-- Python `d[k] = v`: replace the value in place when the key is present,
otherwise append the new binding at the end. -/
def dictSet (d : OptMap) (k : String) (v : Value) : OptMap :=
  if d.any (fun kv => kv.1 = k) then
    d.map (fun kv => if kv.1 = k then (k, v) else kv)
  else
    d ++ [(k, v)]

/-- Python `d.update(e)`: fold the entries of `e` into `d`, last write
winning per key. -/
def dictUpdate (d e : OptMap) : OptMap :=
  e.foldl (fun acc kv => dictSet acc kv.1 kv.2) d

/-- Python exceptions that the orchestrator can raise or propagate. -/
inductive PyErr where
  | valueError : String → PyErr
  | keyError : String → PyErr
  | attributeError : String → PyErr
  | typeError : String → PyErr
  | indexError : String → PyErr
  | collaborator : String → PyErr
deriving DecidableEq, Repr

/-- Observable actions of the orchestrator, recorded in execution order. -/
inductive Event where
  | log : String → Event
  | varRepeatsCheck : Bool → Event
  | diffReorder : ASLData → ASLData → Event
  | subCreate : WPath → Event
  | fitInitCall : WPath → Event
  | initMvnRead : Value → Event
  | printed : OptMap → Event
  | fabberCall : OptMap → Event
  | stepFit : Event
  | stepNative : Event
  | stepReg : Event
  | stepTrans : Event

/-- Machine state threaded through the orchestrator: the workspace store
plus the event trace accumulated so far. -/
structure M where
  st : WSState
  tr : List Event

/-- Append an event to the trace. -/
def emit (m : M) (e : Event) : M :=
  { m with tr := m.tr ++ [e] }

/-- Log-sink write `wsp.log.write(msg)`. -/
def wsLog (m : M) (msg : String) : M :=
  emit m (.log msg)

/-- Attribute write, trace unchanged. -/
def wsSetattr (m : M) (p : WPath) (k : String) (v : Value) : M :=
  { m with st := wsSetattrSt m.st p k v }

/-- Sub-namespace creation, recorded in the trace. -/
def wsSub (m : M) (p : WPath) (name : String) : M :=
  { st := wsSubSt m.st p name, tr := m.tr ++ [.subCreate (p ++ [name])] }

/-- External collaborators consumed by the orchestrator, passed in as
opaque functions: the Fabber inference engine call, the simplified
initialisation fit `fit_init`, and the three `oxford_asl` pipeline
routines.  Each stateful collaborator returns the new workspace store and
either success or a propagated exception. -/
structure Collab where
  fabber : OptMap → Except PyErr ResMap
  fit_init : WSState → WPath → WSState × Except PyErr Unit
  output_native : WSState → WPath → WPath → WSState × Except PyErr Unit
  redo_reg : WSState → WPath → Value → WSState × Except PyErr Unit
  output_trans : WSState → WPath → WSState × Except PyErr Unit

/-- Write every key/value pair of a Fabber result mapping into the target
namespace, in order (the `for key, value in result.items()` loop). -/
def writeAll (s : WSState) (p : WPath) (res : ResMap) : WSState :=
  res.foldl (fun acc kv => wsSetattrSt acc p kv.1 kv.2) s

/-- Embedding of `_run_fabber(wsp, options, desc)`: log the description,
invoke the engine, log completion, write every result key into the target
namespace, then look up `result["logfile"]` (a `KeyError` when absent) and,
when the log file path is not `None` and the workspace has a persistence
directory configured, register it for persistence under `"logfile"`.  The
workspace store at exit is returned even when an exception propagates. -/
def _run_fabber (fab : OptMap → Except PyErr ResMap) (m : M) (p : WPath)
    (options : OptMap) (desc : String) : M × Except PyErr ResMap :=
  let m := wsLog m ("  - " ++ desc ++ "     ")
  let m := emit m (.fabberCall options)
  match fab options with
  | .error e => (m, .error e)
  | .ok result =>
    let m := wsLog m " - DONE\n"
    let m := { m with st := writeAll m.st p result }
    match dictGet? result "logfile" with
    | none => (m, .error (.keyError "logfile"))
    | some lv =>
      if lv.isNull || (wsGetattr m.st p "savedir").isNull then (m, .ok result)
      else ({ m with st := set_item m.st p "logfile" lv }, .ok result)

/-- Fixed option fields of `_fabber_options` (the dictionary literal at the
top of the function), given the dataset value, the mask value, the timing
lists and the single repeat count `rpts[0]`. -/
def fabberFixed (dataV maskV : Value) (tis tes taus : List Int) (r : Nat) : OptMap :=
  [("method", .str "vb"),
   ("noise", .str "white"),
   ("model", .str "asl_multite"),
   ("data", dataV),
   ("mask", maskV),
   ("ti", .intList tis),
   ("te", .intList tes),
   ("tau", .intList taus),
   ("repeats", .int r),
   ("infertexch", .bool true),
   ("save-mean", .bool true),
   ("save-model-fit", .bool true),
   ("max-iterations", .int 30)]

/-- The four conditional biophysical constants of `_fabber_options`. -/
def condKeys : List String := ["t1", "t1b", "t2", "t2b"]

/-- Loop body of the conditional layer of `_fabber_options`: read
`wsp.ifnone(opt, None)` and add the option only when the value is not
`None`. -/
def condStep (s : WSState) (p : WPath) (acc : OptMap) (k : String) : OptMap :=
  match wsGetattr s p k with
  | .null => acc
  | v => dictSet acc k v

/-- Conditional layer of `_fabber_options`: the loop over `t1`, `t1b`,
`t2`, `t2b`. -/
def condOpts (s : WSState) (p : WPath) (o : OptMap) : OptMap :=
  condKeys.foldl (condStep s p) o

/-- Embedding of lines 39 to 58 of `_fabber_options(wsp)`: the fixed
dictionary literal followed by the conditional biophysical constants.
Reading `wsp.rois.mask` fails with an `AttributeError` unless `wsp.rois` is
a sub-workspace; reading the timing lists fails when `wsp.asldata` is not a
dataset; `rpts[0]` fails on an empty repeats list. -/
def _fabber_options_base (s : WSState) (p : WPath) : Except PyErr OptMap :=
  let dataV := wsGetattr s p "asldata"
  match wsGetattr s p "rois" with
  | .ws pr =>
    let maskV := wsGetattr s pr "mask"
    match dataV with
    | .data d =>
      match d.rpts with
      | [] => .error (.indexError "rpts")
      | r :: _ =>
        .ok (condOpts s p (fabberFixed dataV maskV d.tis d.tes d.taus r))
    | _ => .error (.attributeError "tis")
  | _ => .error (.attributeError "mask")

/-- Embedding of `_fabber_options(wsp)`: the fixed and conditional layers,
then `options.update(wsp.ifnone("multite_options", {}))` merging the
user-supplied override mapping last, each of its keys overwriting any
earlier binding.  A `multite_options` value that is neither unset nor a
dictionary fails as `dict.update` would. -/
def _fabber_options (s : WSState) (p : WPath) : Except PyErr OptMap :=
  match _fabber_options_base s p with
  | .error e => .error e
  | .ok o =>
    match wsGetattr s p "multite_options" with
    | .null => .ok (dictUpdate o [])
    | .dict ov => .ok (dictUpdate o ov)
    | _ => .error (.typeError "multite_options")

/-- Embedding of the optional initialisation block of `fit_multite` (lines
76 to 81): when `wsp.multite_init` is truthy, create the `init`
sub-namespace, run `fit_init` on it, and read back
`wsp.init.initial_mvn` (the value is bound to a local that the rest of the
function never uses); when the flag is falsy, do nothing. -/
def fit_multite_init (c : Collab) (m : M) (p : WPath) : M × Except PyErr Unit :=
  if (wsGetattr m.st p "multite_init").truthy then
    let m := wsSub m p "init"
    match wsGetattr m.st p "init" with
    | .ws qi =>
      let m := emit m (.fitInitCall qi)
      match c.fit_init m.st qi with
      | (st, .error e) => ({ m with st := st }, .error e)
      | (st, .ok _) =>
        let m := { m with st := st }
        match wsGetattr m.st p "init" with
        | .ws qj =>
          (emit m (.initMvnRead (wsGetattr m.st qj "initial_mvn")), .ok ())
        | _ => (m, .error (.attributeError "initial_mvn"))
    | _ => (m, .error (.attributeError "init"))
  else (m, .ok ())

/-- Embedding of the final block of `fit_multite` (lines 83 to 88): read
`wsp.multite` (an `AttributeError` inside `_fabber_options` when it is not
a sub-workspace), assemble the Fabber options from it, print them, create
the `finalstep` sub-namespace of `wsp.multite` and run Fabber on it, then
log the completion marker. -/
def fit_multite_fabber (c : Collab) (m : M) (p : WPath) : M × Except PyErr Unit :=
  match wsGetattr m.st p "multite" with
  | .ws q =>
    match _fabber_options m.st q with
    | .error e => (m, .error e)
    | .ok options =>
      let m := emit m (.printed options)
      let m := wsSub m q "finalstep"
      match _run_fabber c.fabber m (q ++ ["finalstep"]) options
          "Running Fabber using multi-TE model" with
      | (m, .error e) => (m, .error e)
      | (m, .ok _) => (wsLog m "\nDONE multi-TE decoding\n", .ok ())
  | _ => (m, .error (.attributeError "asldata"))

/-- Embedding of `fit_multite(wsp)`: write the opening log line, check
`wsp.asldata.is_var_repeats()` and raise a `ValueError` on variable
repeats, otherwise replace `wsp.asldata` in place by
`wsp.asldata.diff().reorder(out_order="etr")`, run the optional
initialisation block, and finish with the Fabber invocation block. -/
def fit_multite (c : Collab) (m : M) (p : WPath) : M × Except PyErr Unit :=
  let m := wsLog m "\nPerforming multi-TE model fitting:\n"
  match wsGetattr m.st p "asldata" with
  | .data d =>
    let m := emit m (.varRepeatsCheck d.is_var_repeats)
    if d.is_var_repeats then
      (m, .error (.valueError "Multi-TE ASL data with variable repeats not currently supported"))
    else
      let d2 := (d.diff).reorder "etr"
      let m := emit (wsSetattr m p "asldata" (.data d2)) (.diffReorder d d2)
      match fit_multite_init c m p with
      | (m, .error e) => (m, .error e)
      | (m, .ok _) => fit_multite_fabber c m p
  | _ => (m, .error (.attributeError "is_var_repeats"))

/-- Embedding of `model_multite(wsp)`: create the `multite` sub-namespace
and run `fit_multite` on it; create the `output` sub-namespace and call
`output_native(wsp.output, wsp.multite)`; read
`wsp.output.native.perfusion` and call `redo_reg(wsp, ...)` with it; call
`output_trans(wsp.output)`; log the final completion marker.  Each step
runs only when every earlier step succeeded, and any exception propagates
unchanged. -/
def model_multite (c : Collab) (m : M) (p : WPath) : M × Except PyErr Unit :=
  let m := wsSub m p "multite"
  let m := emit m .stepFit
  match wsGetattr m.st p "multite" with
  | .ws q =>
    match fit_multite c m q with
    | (m, .error e) => (m, .error e)
    | (m, .ok _) =>
      let m := wsSub m p "output"
      let m := emit m .stepNative
      match wsGetattr m.st p "output", wsGetattr m.st p "multite" with
      | .ws po, .ws pm =>
        match c.output_native m.st po pm with
        | (st, .error e) => ({ m with st := st }, .error e)
        | (st, .ok _) =>
          let m := { m with st := st }
          match wsGetattr m.st p "output" with
          | .ws po2 =>
            match wsGetattr m.st po2 "native" with
            | .ws pn =>
              let m := emit m .stepReg
              match c.redo_reg m.st p (wsGetattr m.st pn "perfusion") with
              | (st, .error e) => ({ m with st := st }, .error e)
              | (st, .ok _) =>
                let m := { m with st := st }
                let m := emit m .stepTrans
                match wsGetattr m.st p "output" with
                | .ws po3 =>
                  match c.output_trans m.st po3 with
                  | (st, .error e) => ({ m with st := st }, .error e)
                  | (st, .ok _) => (wsLog { m with st := st } "\nDONE processing\n", .ok ())
                | _ => (m, .error (.attributeError "output_trans"))
            | _ => (m, .error (.attributeError "perfusion"))
          | _ => (m, .error (.attributeError "native"))
      | _, _ => (m, .error (.attributeError "output_native"))
  | _ => (m, .error (.attributeError "fit_multite"))

/-- Tags of the four top-level pipeline steps of `model_multite`. -/
inductive StepTag where
  | fit : StepTag
  | native : StepTag
  | reg : StepTag
  | trans : StepTag
deriving DecidableEq, Repr

/-- The step marker carried by an event, if any. -/
def markerOf : Event → Option StepTag
  | .stepFit => some .fit
  | .stepNative => some .native
  | .stepReg => some .reg
  | .stepTrans => some .trans
  | _ => none

/-- The sequence of top-level pipeline steps recorded in a trace. -/
def stepMarkers (tr : List Event) : List StepTag :=
  tr.filterMap markerOf

/-- The four pipeline steps of `model_multite` in specification order. -/
def allSteps : List StepTag := [.fit, .native, .reg, .trans]

/-- The option mappings passed to the inference engine in a trace, in
call order. -/
def fabberCalls (tr : List Event) : List OptMap :=
  tr.filterMap (fun e =>
    match e with
    | .fabberCall o => some o
    | _ => none)

/-- Trace extension with no top-level step markers: the second machine
state extends the trace of the first by marker-free events only. -/
def TrPure (m m' : M) : Prop :=
  ∃ t, m'.tr = m.tr ++ t ∧ stepMarkers t = []

/-- Example multi-TE dataset with uniform repeats, used by the concrete
witness instances. -/
def exData : ASLData := ⟨[10, 4, 8, 2], [1, 2], [3, 4], [5], [2, 2], "lrt"⟩

/-- Example dataset whose repeat count varies across TIs. -/
def exDataVar : ASLData := ⟨[10, 4, 8, 2], [1, 2], [3, 4], [5], [2, 3], "lrt"⟩

/-- Example root workspace store of the canonical pipeline shape: dataset,
region-of-interest mask and persistence directory at the root, and a
`multite` sub-workspace bound at the root. -/
def exSt : WSState :=
  ⟨[(["asldata"], .data exData), (["rois"], .ws ["rois"]),
    (["rois", "mask"], .img "mask"), (["multite"], .ws ["multite"]),
    (["savedir"], .str "/tmp/out")], [], []⟩

/-- Variant of `exSt` holding the variable-repeats dataset. -/
def exStVar : WSState :=
  ⟨[(["asldata"], .data exDataVar), (["rois"], .ws ["rois"]),
    (["rois", "mask"], .img "mask"), (["multite"], .ws ["multite"]),
    (["savedir"], .str "/tmp/out")], [], []⟩

/-- Variant of `exSt` with the biophysical constant `t1` configured. -/
def exStT1 : WSState := ⟨(["t1"], .int 1) :: exSt.attrs, [], []⟩

/-- Variant of `exSt` with a user override mapping raising the iteration
cap to 50. -/
def exStOverride : WSState :=
  ⟨(["multite_options"], .dict [("max-iterations", .int 50)]) :: exSt.attrs, [], []⟩

/-- Variant of `exSt` whose user override mapping replaces the `data`
option passed to the inference engine. -/
def exStDataOverride : WSState :=
  ⟨(["multite_options"], .dict [("data", .str "hacked")]) :: exSt.attrs, [], []⟩

/-- Variant of `exSt` with the `multite_init` flag enabled. -/
def exStInit : WSState :=
  ⟨(["multite_init"], .bool true) :: exSt.attrs, [], []⟩

/-- Example collaborator implementations used by the witness instances:
the engine returns a perfusion map and a log file path, `fit_init` stores
a parameter-distribution summary in its namespace, and `output_native`
creates the `native` sub-namespace with a perfusion map. -/
def exCollab : Collab :=
  { fabber := fun _ => .ok [("mean_ftiss", .img "ftiss"), ("logfile", .str "/tmp/log.txt")]
    fit_init := fun st q => (wsSetattrSt st q "initial_mvn" (.img "mvn"), .ok ())
    output_native := fun st po _ =>
      (wsSetattrSt (wsSubSt st po "native") (po ++ ["native"]) "perfusion" (.img "pwi"), .ok ())
    redo_reg := fun st _ _ => (st, .ok ())
    output_trans := fun st _ => (st, .ok ()) }

/-- Whether an event is not an initialisation artifact for the `init`
namespace `q0`: no creation of that namespace, no `fit_init` invocation,
no read of its parameter-distribution summary. -/
def noInitEvent (q0 : WPath) : Event → Bool
  | .subCreate q => q != q0
  | .fitInitCall _ => false
  | .initMvnRead _ => false
  | _ => true

theorem dictGet?_nil (k : String) : dictGet? [] k = none := rfl

theorem dictGet?_cons (kv : String × Value) (d : OptMap) (k : String) :
    dictGet? (kv :: d) k = if kv.1 = k then some kv.2 else dictGet? d k := by
  by_cases h : kv.1 = k <;> simp [dictGet?, List.find?_cons, h]

theorem dictGet?_eq_none_of_not_mem {d : OptMap} {k : String}
    (h : k ∉ d.map Prod.fst) : dictGet? d k = none := by
  induction d with
  | nil => rfl
  | cons kv tl ih =>
    simp only [List.map_cons, List.mem_cons] at h
    push_neg at h
    rw [dictGet?_cons, if_neg (fun hc => h.1 hc.symm), ih h.2]

theorem dictGet?_map_replace_ne (d : OptMap) (k : String) (v : Value) (k' : String)
    (h : k' ≠ k) :
    dictGet? (d.map (fun kv => if kv.1 = k then (k, v) else kv)) k' = dictGet? d k' := by
  induction d with
  | nil => rfl
  | cons kv tl ih =>
    by_cases hk : kv.1 = k
    · simp only [List.map_cons, if_pos hk, dictGet?_cons,
        if_neg (fun hc : k = k' => h hc.symm), if_neg (fun hc : kv.1 = k' => h (hk ▸ hc).symm)]
      exact ih
    · simp only [List.map_cons, if_neg hk, dictGet?_cons]
      by_cases hk' : kv.1 = k'
      · simp [hk']
      · simp only [if_neg hk']
        exact ih

theorem dictGet?_map_replace_self (d : OptMap) (k : String) (v : Value)
    (h : k ∈ d.map Prod.fst) :
    dictGet? (d.map (fun kv => if kv.1 = k then (k, v) else kv)) k = some v := by
  induction d with
  | nil => simp at h
  | cons kv tl ih =>
    by_cases hk : kv.1 = k
    · simp [List.map_cons, if_pos hk, dictGet?_cons]
    · simp only [List.map_cons, List.mem_cons] at h
      rcases h with h | h
      · exact absurd h.symm hk
      · simp only [List.map_cons, if_neg hk, dictGet?_cons, if_neg hk]
        exact ih h

theorem dictGet?_append (d e : OptMap) (k : String) :
    dictGet? (d ++ e) k = (dictGet? d k).or (dictGet? e k) := by
  induction d with
  | nil =>
    rw [List.nil_append, dictGet?_nil]
    rfl
  | cons hd tl ih =>
    rw [List.cons_append, dictGet?_cons, dictGet?_cons]
    by_cases hk : hd.1 = k
    · rw [if_pos hk, if_pos hk]
      rfl
    · rw [if_neg hk, if_neg hk, ih]

theorem dictSet_eq_append {d : OptMap} {k : String} (v : Value)
    (h : d.any (fun kv => kv.1 = k) = false) : dictSet d k v = d ++ [(k, v)] := by
  simp only [dictSet, h, Bool.false_eq_true, if_false]

theorem dictSet_eq_map {d : OptMap} {k : String} (v : Value)
    (h : d.any (fun kv => kv.1 = k) = true) :
    dictSet d k v = d.map (fun kv => if kv.1 = k then (k, v) else kv) := by
  simp only [dictSet, h, if_true]

theorem dictGet?_dictSet (d : OptMap) (k : String) (v : Value) (k' : String) :
    dictGet? (dictSet d k v) k' = if k' = k then some v else dictGet? d k' := by
  by_cases hany : d.any (fun kv => kv.1 = k) = true
  · rw [dictSet_eq_map v hany]
    by_cases h : k' = k
    · subst h
      rw [if_pos rfl]
      apply dictGet?_map_replace_self
      rcases List.any_eq_true.mp hany with ⟨x, hx, hxk⟩
      exact List.mem_map.mpr ⟨x, hx, by simpa using hxk⟩
    · rw [if_neg h]
      exact dictGet?_map_replace_ne d k v k' h
  · rw [dictSet_eq_append v (Bool.not_eq_true _ ▸ hany), dictGet?_append]
    have hno : k ∉ d.map Prod.fst := by
      intro hmem
      rcases List.mem_map.mp hmem with ⟨x, hx, hxk⟩
      exact hany (List.any_eq_true.mpr ⟨x, hx, by simpa using hxk⟩)
    by_cases h : k' = k
    · subst h
      rw [if_pos rfl, dictGet?_eq_none_of_not_mem hno, dictGet?_cons, if_pos rfl]
      rfl
    · rw [if_neg h, dictGet?_cons, dictGet?_nil,
        if_neg (fun hc : k = k' => h hc.symm)]
      cases dictGet? d k' <;> rfl

theorem dictGet?_dictSet_self (d : OptMap) (k : String) (v : Value) :
    dictGet? (dictSet d k v) k = some v := by
  rw [dictGet?_dictSet, if_pos rfl]

theorem dictGet?_dictSet_ne (d : OptMap) (k : String) (v : Value) (k' : String)
    (h : k' ≠ k) : dictGet? (dictSet d k v) k' = dictGet? d k' := by
  rw [dictGet?_dictSet, if_neg h]

theorem dictGet?_dictUpdate_of_none (d e : OptMap) (k : String)
    (h : dictGet? e k = none) : dictGet? (dictUpdate d e) k = dictGet? d k := by
  induction e generalizing d with
  | nil => rfl
  | cons kv tl ih =>
    rw [dictGet?_cons] at h
    by_cases hk : kv.1 = k
    · simp [hk] at h
    · simp only [if_neg hk] at h
      show dictGet? (dictUpdate (dictSet d kv.1 kv.2) tl) k = dictGet? d k
      rw [ih _ h, dictGet?_dictSet_ne _ _ _ _ (fun hc => hk hc.symm)]

theorem dictGet?_dictUpdate_of_some (d e : OptMap) (k : String) (v : Value)
    (hnd : (e.map Prod.fst).Nodup) (h : dictGet? e k = some v) :
    dictGet? (dictUpdate d e) k = some v := by
  induction e generalizing d with
  | nil => simp [dictGet?] at h
  | cons kv tl ih =>
    simp only [List.map_cons, List.nodup_cons] at hnd
    rw [dictGet?_cons] at h
    by_cases hk : kv.1 = k
    · rw [if_pos hk] at h
      have hnone : dictGet? tl k = none :=
        dictGet?_eq_none_of_not_mem (hk ▸ hnd.1)
      show dictGet? (dictUpdate (dictSet d kv.1 kv.2) tl) k = some v
      rw [dictGet?_dictUpdate_of_none _ _ _ hnone, hk, dictGet?_dictSet_self]
      simpa using h
    · rw [if_neg hk] at h
      exact ih (dictSet d kv.1 kv.2) hnd.2 h

theorem condStep_get_ne (s : WSState) (p : WPath) (acc : OptMap) (k k' : String)
    (h : k' ≠ k) : dictGet? (condStep s p acc k) k' = dictGet? acc k' := by
  unfold condStep
  cases wsGetattr s p k
  case null => rfl
  all_goals exact dictGet?_dictSet_ne _ _ _ _ h

theorem condStep_of_null (s : WSState) (p : WPath) (acc : OptMap) (k : String)
    (h : wsGetattr s p k = .null) : condStep s p acc k = acc := by
  unfold condStep
  rw [h]

theorem condStep_of_set (s : WSState) (p : WPath) (acc : OptMap) (k : String)
    (v : Value) (h : wsGetattr s p k = v) (hv : v.isNull = false) :
    condStep s p acc k = dictSet acc k v := by
  unfold condStep
  rw [h]
  cases v
  case null => simp [Value.isNull] at hv
  all_goals rfl

theorem condOpts_eq (s : WSState) (p : WPath) (o : OptMap) :
    condOpts s p o =
      condStep s p (condStep s p (condStep s p (condStep s p o "t1") "t1b") "t2") "t2b" := rfl

theorem condOpts_get_not_mem (s : WSState) (p : WPath) (o : OptMap) (k : String)
    (h : k ∉ condKeys) : dictGet? (condOpts s p o) k = dictGet? o k := by
  simp only [condKeys, List.mem_cons, List.not_mem_nil, or_false] at h
  push_neg at h
  rw [condOpts_eq, condStep_get_ne _ _ _ _ _ h.2.2.2, condStep_get_ne _ _ _ _ _ h.2.2.1,
    condStep_get_ne _ _ _ _ _ h.2.1, condStep_get_ne _ _ _ _ _ h.1]

theorem append_last_eq {l₁ l₂ : WPath} {a b : String} (h : l₁ ++ [a] = l₂ ++ [b]) :
    a = b := by
  have h2 := congrArg List.reverse h
  simp only [List.reverse_append, List.reverse_cons, List.reverse_nil, List.nil_append,
    List.singleton_append, List.cons.injEq] at h2
  exact h2.1

theorem wsGetattrRev_cons_ne (pk : WPath) (v : Value) (attrs : List (WPath × Value))
    (k : String) (rp : WPath)
    (h : ∀ anc : WPath, anc.length ≤ rp.length → pk ≠ anc ++ [k]) :
    wsGetattrRev ((pk, v) :: attrs) k rp = wsGetattrRev attrs k rp := by
  induction rp with
  | nil =>
    have hne : pk ≠ ([k] : WPath) := by simpa using h [] (by simp)
    simp only [wsGetattrRev]
    rw [List.find?_cons_of_neg _ (by simp [hne])]
  | cons a rest ih =>
    have hne : pk ≠ (a :: rest).reverse ++ [k] := h _ (by simp)
    simp only [wsGetattrRev]
    rw [List.find?_cons_of_neg _ (by simpa using hne)]
    cases hf : attrs.find? (fun kv => kv.1 = (a :: rest).reverse ++ [k]) with
    | some kv => rfl
    | none => exact ih (fun anc hl => h anc (le_trans hl (by simp)))

theorem wsGetattrRev_cons_self (q : WPath) (k : String) (v : Value)
    (attrs : List (WPath × Value)) :
    wsGetattrRev ((q ++ [k], v) :: attrs) k q.reverse = v := by
  cases hp : q.reverse with
  | nil =>
    have hq : q = [] := by simpa using congrArg List.reverse hp
    subst hq
    simp only [wsGetattrRev]
    rw [List.find?_cons_of_pos _ (by simp)]
  | cons a rest =>
    have hq : (a :: rest).reverse = q := by
      rw [← hp, List.reverse_reverse]
    simp only [wsGetattrRev]
    rw [List.find?_cons_of_pos _ (by simp [hq])]

theorem wsGetattr_setattr_self (s : WSState) (p : WPath) (k : String) (v : Value) :
    wsGetattr (wsSetattrSt s p k v) p k = v := by
  unfold wsGetattr wsSetattrSt
  exact wsGetattrRev_cons_self p k v s.attrs

theorem wsGetattr_sub_self (s : WSState) (p : WPath) (name : String) :
    wsGetattr (wsSubSt s p name) p name = .ws (p ++ [name]) := by
  unfold wsGetattr wsSubSt
  exact wsGetattrRev_cons_self p name _ s.attrs

theorem wsGetattr_setattr_ne (s : WSState) (p' : WPath) (k' : String) (v : Value)
    (p : WPath) (k : String) (h : k' ≠ k) :
    wsGetattr (wsSetattrSt s p' k' v) p k = wsGetattr s p k := by
  unfold wsGetattr wsSetattrSt
  exact wsGetattrRev_cons_ne _ _ _ _ _ (fun anc _ hc => h (append_last_eq hc))

theorem wsGetattr_sub_ne (s : WSState) (p' : WPath) (name : String)
    (p : WPath) (k : String) (h : name ≠ k) :
    wsGetattr (wsSubSt s p' name) p k = wsGetattr s p k := by
  unfold wsGetattr wsSubSt
  exact wsGetattrRev_cons_ne _ _ _ _ _ (fun anc _ hc => h (append_last_eq hc))

theorem wsGetattr_set_item_ne (s : WSState) (p' : WPath) (k' : String) (v : Value)
    (p : WPath) (k : String) (h : k' ≠ k) :
    wsGetattr (set_item s p' k' v) p k = wsGetattr s p k := by
  unfold wsGetattr set_item
  exact wsGetattrRev_cons_ne _ _ _ _ _ (fun anc _ hc => h (append_last_eq hc))

theorem wsGetattr_setattr_longer (s : WSState) (p' : WPath) (k' : String) (v : Value)
    (p : WPath) (k : String) (h : p.length < p'.length) :
    wsGetattr (wsSetattrSt s p' k' v) p k = wsGetattr s p k := by
  unfold wsGetattr wsSetattrSt
  apply wsGetattrRev_cons_ne
  intro anc hl hc
  have hlen := congrArg List.length hc
  simp only [List.length_append, List.length_cons, List.length_nil] at hlen
  rw [List.length_reverse] at hl
  omega

theorem writeAll_saved (s : WSState) (p : WPath) (res : ResMap) :
    (writeAll s p res).saved = s.saved := by
  induction res generalizing s with
  | nil => rfl
  | cons kv tl ih => exact ih (wsSetattrSt s p kv.1 kv.2)

theorem writeAll_subsCreated (s : WSState) (p : WPath) (res : ResMap) :
    (writeAll s p res).subsCreated = s.subsCreated := by
  induction res generalizing s with
  | nil => rfl
  | cons kv tl ih => exact ih (wsSetattrSt s p kv.1 kv.2)

theorem wsGetattr_writeAll_not_mem (s : WSState) (p : WPath) (res : ResMap)
    (p' : WPath) (k : String) (h : k ∉ res.map Prod.fst) :
    wsGetattr (writeAll s p res) p' k = wsGetattr s p' k := by
  induction res generalizing s with
  | nil => rfl
  | cons kv tl ih =>
    simp only [List.map_cons, List.mem_cons] at h
    push_neg at h
    show wsGetattr (writeAll (wsSetattrSt s p kv.1 kv.2) p tl) p' k = wsGetattr s p' k
    rw [ih _ h.2, wsGetattr_setattr_ne _ _ _ _ _ _ (fun hc => h.1 hc.symm)]

theorem wsGetattr_writeAll_mem (s : WSState) (p : WPath) (res : ResMap)
    (k : String) (v : Value) (hnd : (res.map Prod.fst).Nodup) (hmem : (k, v) ∈ res) :
    wsGetattr (writeAll s p res) p k = v := by
  induction res generalizing s with
  | nil => simp at hmem
  | cons kv tl ih =>
    simp only [List.map_cons, List.nodup_cons] at hnd
    rcases List.mem_cons.mp hmem with h | h
    · subst h
      show wsGetattr (writeAll (wsSetattrSt s p k v) p tl) p k = v
      rw [wsGetattr_writeAll_not_mem _ _ _ _ _ hnd.1, wsGetattr_setattr_self]
    · exact ih (wsSetattrSt s p kv.1 kv.2) hnd.2 h

theorem wsGetattr_writeAll_longer (s : WSState) (p' : WPath) (res : ResMap)
    (p : WPath) (k : String) (h : p.length < p'.length) :
    wsGetattr (writeAll s p' res) p k = wsGetattr s p k := by
  induction res generalizing s with
  | nil => rfl
  | cons kv tl ih =>
    show wsGetattr (writeAll (wsSetattrSt s p' kv.1 kv.2) p' tl) p k = wsGetattr s p k
    rw [ih (wsSetattrSt s p' kv.1 kv.2), wsGetattr_setattr_longer _ _ _ _ _ _ h]

@[simp] theorem emit_st (m : M) (e : Event) : (emit m e).st = m.st := rfl

@[simp] theorem emit_tr (m : M) (e : Event) : (emit m e).tr = m.tr ++ [e] := rfl

@[simp] theorem wsLog_st (m : M) (msg : String) : (wsLog m msg).st = m.st := rfl

@[simp] theorem wsLog_tr (m : M) (msg : String) : (wsLog m msg).tr = m.tr ++ [.log msg] := rfl

@[simp] theorem wsSetattr_st (m : M) (p : WPath) (k : String) (v : Value) :
    (wsSetattr m p k v).st = wsSetattrSt m.st p k v := rfl

@[simp] theorem wsSetattr_tr (m : M) (p : WPath) (k : String) (v : Value) :
    (wsSetattr m p k v).tr = m.tr := rfl

@[simp] theorem wsSub_st (m : M) (p : WPath) (name : String) :
    (wsSub m p name).st = wsSubSt m.st p name := rfl

@[simp] theorem wsSub_tr (m : M) (p : WPath) (name : String) :
    (wsSub m p name).tr = m.tr ++ [.subCreate (p ++ [name])] := rfl

theorem stepMarkers_append (a b : List Event) :
    stepMarkers (a ++ b) = stepMarkers a ++ stepMarkers b :=
  List.filterMap_append a b markerOf

theorem TrPure.rfl (m : M) : TrPure m m := ⟨[], by simp, by simp [stepMarkers]⟩

theorem TrPure.trans {m₁ m₂ m₃ : M} (h : TrPure m₁ m₂) (h' : TrPure m₂ m₃) :
    TrPure m₁ m₃ := by
  rcases h with ⟨t1, h1, h1m⟩
  rcases h' with ⟨t2, h2, h2m⟩
  exact ⟨t1 ++ t2, by rw [h2, h1, List.append_assoc],
    by rw [stepMarkers_append, h1m, h2m, List.append_nil]⟩

theorem TrPure.markers {m m' : M} (h : TrPure m m') :
    stepMarkers m'.tr = stepMarkers m.tr := by
  rcases h with ⟨t, h1, h2⟩
  rw [h1, stepMarkers_append, h2, List.append_nil]

theorem TrPure.take {m m' : M} (h : TrPure m m') :
    m'.tr.take m.tr.length = m.tr := by
  rcases h with ⟨t, h1, _⟩
  rw [h1]
  exact List.take_left m.tr t

theorem trPure_emit (m : M) (e : Event) (h : markerOf e = none) : TrPure m (emit m e) :=
  ⟨[e], by simp, by simp [stepMarkers, List.filterMap, h]⟩

theorem trPure_st (m : M) (st : WSState) : TrPure m { m with st := st } :=
  ⟨[], by simp, by simp [stepMarkers]⟩

theorem trPure_run_fabber (fab : OptMap → Except PyErr ResMap) (m : M) (p : WPath)
    (options : OptMap) (desc : String) :
    TrPure m (_run_fabber fab m p options desc).1 := by
  unfold _run_fabber
  dsimp only
  cases hf : fab options with
  | error e =>
    exact ⟨[.log ("  - " ++ desc ++ "     "), .fabberCall options], by simp, rfl⟩
  | ok result =>
    dsimp only
    cases hl : dictGet? result "logfile" with
    | none =>
      simp only [hl]
      exact ⟨[.log ("  - " ++ desc ++ "     "), .fabberCall options, .log " - DONE\n"],
        by simp, rfl⟩
    | some lv =>
      simp only [hl]
      split
      · exact ⟨[.log ("  - " ++ desc ++ "     "), .fabberCall options, .log " - DONE\n"],
          by simp, rfl⟩
      · exact ⟨[.log ("  - " ++ desc ++ "     "), .fabberCall options, .log " - DONE\n"],
          by simp, rfl⟩

theorem trPure_fit_multite_init (c : Collab) (m : M) (p : WPath) :
    TrPure m (fit_multite_init c m p).1 := by
  unfold fit_multite_init
  split
  · unfold_let
    split
    next qi hqi =>
      dsimp only
      split
      next st e hst =>
        exact ⟨[.subCreate (p ++ ["init"]), .fitInitCall qi], by simp, rfl⟩
      next st u hst =>
        split
        next qj hqj =>
          refine ⟨[.subCreate (p ++ ["init"]), .fitInitCall qi,
            .initMvnRead (wsGetattr st qj "initial_mvn")], by simp, rfl⟩
        next hqj =>
          exact ⟨[.subCreate (p ++ ["init"]), .fitInitCall qi], by simp, rfl⟩
    next hqi =>
      exact ⟨[.subCreate (p ++ ["init"])], by simp, rfl⟩
  · exact TrPure.rfl m

theorem trPure_fit_multite_fabber (c : Collab) (m : M) (p : WPath) :
    TrPure m (fit_multite_fabber c m p).1 := by
  unfold fit_multite_fabber
  split
  next q hq =>
    split
    next e he => exact TrPure.rfl m
    next options hopt =>
      unfold_let
      have h1 : TrPure m (wsSub (emit m (.printed options)) q "finalstep") :=
        ⟨[.printed options, .subCreate (q ++ ["finalstep"])], by simp, rfl⟩
      have h2 := trPure_run_fabber c.fabber (wsSub (emit m (.printed options)) q "finalstep")
        (q ++ ["finalstep"]) options "Running Fabber using multi-TE model"
      split
      next m' e hrun =>
        rw [hrun] at h2
        exact h1.trans h2
      next m' u hrun =>
        rw [hrun] at h2
        exact h1.trans (h2.trans ⟨[.log "\nDONE multi-TE decoding\n"], by simp, rfl⟩)
  next hq => exact TrPure.rfl m

theorem trPure_fit_multite (c : Collab) (m : M) (p : WPath) :
    TrPure m (fit_multite c m p).1 := by
  unfold fit_multite
  unfold_let
  split
  next d hd =>
    split
    · exact ⟨[.log "\nPerforming multi-TE model fitting:\n",
        .varRepeatsCheck d.is_var_repeats], by simp, rfl⟩
    · unfold_let
      have h1 : TrPure m (emit (wsSetattr (emit (wsLog m
          "\nPerforming multi-TE model fitting:\n") (.varRepeatsCheck d.is_var_repeats))
          p "asldata" (.data ((d.diff).reorder "etr")))
          (.diffReorder d ((d.diff).reorder "etr"))) :=
        ⟨[.log "\nPerforming multi-TE model fitting:\n",
          .varRepeatsCheck d.is_var_repeats,
          .diffReorder d ((d.diff).reorder "etr")], by simp, rfl⟩
      have h2 := trPure_fit_multite_init c (emit (wsSetattr (emit (wsLog m
          "\nPerforming multi-TE model fitting:\n") (.varRepeatsCheck d.is_var_repeats))
          p "asldata" (.data ((d.diff).reorder "etr")))
          (.diffReorder d ((d.diff).reorder "etr"))) p
      split
      next m' e hinit =>
        rw [hinit] at h2
        exact h1.trans h2
      next m' u hinit =>
        rw [hinit] at h2
        exact h1.trans (h2.trans (trPure_fit_multite_fabber c m' p))
  next hd =>
    exact ⟨[.log "\nPerforming multi-TE model fitting:\n"], by simp, rfl⟩

@[simp] theorem stepMarkers_nil : stepMarkers [] = [] := rfl

@[simp] theorem stepMarkers_cons_log (s : String) (t : List Event) :
    stepMarkers (.log s :: t) = stepMarkers t := rfl

@[simp] theorem stepMarkers_cons_check (b : Bool) (t : List Event) :
    stepMarkers (.varRepeatsCheck b :: t) = stepMarkers t := rfl

@[simp] theorem stepMarkers_cons_diff (d d' : ASLData) (t : List Event) :
    stepMarkers (.diffReorder d d' :: t) = stepMarkers t := rfl

@[simp] theorem stepMarkers_cons_sub (p : WPath) (t : List Event) :
    stepMarkers (.subCreate p :: t) = stepMarkers t := rfl

@[simp] theorem stepMarkers_cons_fitInit (p : WPath) (t : List Event) :
    stepMarkers (.fitInitCall p :: t) = stepMarkers t := rfl

@[simp] theorem stepMarkers_cons_mvn (v : Value) (t : List Event) :
    stepMarkers (.initMvnRead v :: t) = stepMarkers t := rfl

@[simp] theorem stepMarkers_cons_printed (o : OptMap) (t : List Event) :
    stepMarkers (.printed o :: t) = stepMarkers t := rfl

@[simp] theorem stepMarkers_cons_fabber (o : OptMap) (t : List Event) :
    stepMarkers (.fabberCall o :: t) = stepMarkers t := rfl

@[simp] theorem stepMarkers_cons_stepFit (t : List Event) :
    stepMarkers (.stepFit :: t) = .fit :: stepMarkers t := rfl

@[simp] theorem stepMarkers_cons_stepNative (t : List Event) :
    stepMarkers (.stepNative :: t) = .native :: stepMarkers t := rfl

@[simp] theorem stepMarkers_cons_stepReg (t : List Event) :
    stepMarkers (.stepReg :: t) = .reg :: stepMarkers t := rfl

@[simp] theorem stepMarkers_cons_stepTrans (t : List Event) :
    stepMarkers (.stepTrans :: t) = .trans :: stepMarkers t := rfl

theorem TrPure.take_pre {m₃ mX : M} (h : TrPure m₃ mX) (tr0 pre : List Event)
    (hm₃ : m₃.tr = tr0 ++ pre) : mX.tr.take (tr0.length + pre.length) = tr0 ++ pre := by
  rcases h with ⟨t, ht, _⟩
  rw [ht, hm₃, List.append_assoc]
  have := List.take_left (tr0 ++ pre) t
  rw [List.length_append] at this
  rw [← List.append_assoc]
  exact this

theorem fabberCalls_append (a b : List Event) :
    fabberCalls (a ++ b) = fabberCalls a ++ fabberCalls b :=
  List.filterMap_append a b _

@[simp] theorem fabberCalls_nil : fabberCalls [] = [] := rfl

@[simp] theorem fabberCalls_cons_log (s : String) (t : List Event) :
    fabberCalls (.log s :: t) = fabberCalls t := rfl

@[simp] theorem fabberCalls_cons_check (b : Bool) (t : List Event) :
    fabberCalls (.varRepeatsCheck b :: t) = fabberCalls t := rfl

@[simp] theorem fabberCalls_cons_diff (d d' : ASLData) (t : List Event) :
    fabberCalls (.diffReorder d d' :: t) = fabberCalls t := rfl

@[simp] theorem fabberCalls_cons_sub (p : WPath) (t : List Event) :
    fabberCalls (.subCreate p :: t) = fabberCalls t := rfl

@[simp] theorem fabberCalls_cons_fitInit (p : WPath) (t : List Event) :
    fabberCalls (.fitInitCall p :: t) = fabberCalls t := rfl

@[simp] theorem fabberCalls_cons_mvn (v : Value) (t : List Event) :
    fabberCalls (.initMvnRead v :: t) = fabberCalls t := rfl

@[simp] theorem fabberCalls_cons_printed (o : OptMap) (t : List Event) :
    fabberCalls (.printed o :: t) = fabberCalls t := rfl

@[simp] theorem fabberCalls_cons_call (o : OptMap) (t : List Event) :
    fabberCalls (.fabberCall o :: t) = o :: fabberCalls t := rfl

@[simp] theorem fabberCalls_cons_stepFit (t : List Event) :
    fabberCalls (.stepFit :: t) = fabberCalls t := rfl

@[simp] theorem fabberCalls_cons_stepNative (t : List Event) :
    fabberCalls (.stepNative :: t) = fabberCalls t := rfl

@[simp] theorem fabberCalls_cons_stepReg (t : List Event) :
    fabberCalls (.stepReg :: t) = fabberCalls t := rfl

@[simp] theorem fabberCalls_cons_stepTrans (t : List Event) :
    fabberCalls (.stepTrans :: t) = fabberCalls t := rfl

theorem _run_fabber_calls (fab : OptMap → Except PyErr ResMap) (m : M) (p : WPath)
    (options : OptMap) (desc : String) :
    ∃ t, (_run_fabber fab m p options desc).1.tr = m.tr ++ t ∧ fabberCalls t = [options] := by
  unfold _run_fabber
  dsimp only
  cases hf : fab options with
  | error e =>
    exact ⟨[.log ("  - " ++ desc ++ "     "), .fabberCall options], by simp, rfl⟩
  | ok result =>
    dsimp only
    cases hl : dictGet? result "logfile" with
    | none =>
      simp only [hl]
      exact ⟨[.log ("  - " ++ desc ++ "     "), .fabberCall options, .log " - DONE\n"],
        by simp, rfl⟩
    | some lv =>
      simp only [hl]
      split
      · exact ⟨[.log ("  - " ++ desc ++ "     "), .fabberCall options, .log " - DONE\n"],
          by simp, rfl⟩
      · exact ⟨[.log ("  - " ++ desc ++ "     "), .fabberCall options, .log " - DONE\n"],
          by simp, rfl⟩

theorem fit_multite_init_calls (c : Collab) (m : M) (p : WPath) :
    ∃ t, (fit_multite_init c m p).1.tr = m.tr ++ t ∧ fabberCalls t = [] := by
  unfold fit_multite_init
  split
  · unfold_let
    split
    next qi hqi =>
      dsimp only
      split
      next st e hst =>
        exact ⟨[.subCreate (p ++ ["init"]), .fitInitCall qi], by simp, rfl⟩
      next st u hst =>
        split
        next qj hqj =>
          exact ⟨[.subCreate (p ++ ["init"]), .fitInitCall qi,
            .initMvnRead (wsGetattr st qj "initial_mvn")], by simp, rfl⟩
        next hqj =>
          exact ⟨[.subCreate (p ++ ["init"]), .fitInitCall qi], by simp, rfl⟩
    next hqi =>
      exact ⟨[.subCreate (p ++ ["init"])], by simp, rfl⟩
  · exact ⟨[], by simp, rfl⟩

theorem dictGet?_of_mem_nodup {res : ResMap} {k : String} {v : Value}
    (hnd : (res.map Prod.fst).Nodup) (hmem : (k, v) ∈ res) :
    dictGet? res k = some v := by
  induction res with
  | nil => simp at hmem
  | cons kv tl ih =>
    simp only [List.map_cons, List.nodup_cons] at hnd
    rcases List.mem_cons.mp hmem with h | h
    · subst h
      rw [dictGet?_cons, if_pos rfl]
    · rw [dictGet?_cons]
      by_cases hk : kv.1 = k
      · exact absurd (hk ▸ List.mem_map.mpr ⟨(k, v), h, rfl⟩) hnd.1
      · rw [if_neg hk]
        exact ih hnd.2 h

theorem fabberFixed_keys (dv mv : Value) (tis tes taus : List Int) (r : Nat) :
    (fabberFixed dv mv tis tes taus r).map Prod.fst =
      ["method", "noise", "model", "data", "mask", "ti", "te", "tau", "repeats",
       "infertexch", "save-mean", "save-model-fit", "max-iterations"] := rfl

theorem fabberFixed_get_data (dv mv : Value) (tis tes taus : List Int) (r : Nat) :
    dictGet? (fabberFixed dv mv tis tes taus r) "data" = some dv := rfl

theorem fabberFixed_condKeys_none (dv mv : Value) (tis tes taus : List Int) (r : Nat)
    (k : String) (hk : k ∈ condKeys) :
    dictGet? (fabberFixed dv mv tis tes taus r) k = none := by
  simp only [condKeys, List.mem_cons, List.not_mem_nil, or_false] at hk
  rcases hk with h | h | h | h <;> subst h <;> rfl

theorem condOpts_get_mem (s : WSState) (p : WPath) (o : OptMap) (k : String)
    (hk : k ∈ condKeys) (hbase : dictGet? o k = none) :
    (wsGetattr s p k = .null → dictGet? (condOpts s p o) k = none) ∧
    (∀ v, wsGetattr s p k = v → v.isNull = false → dictGet? (condOpts s p o) k = some v) := by
  simp only [condKeys, List.mem_cons, List.not_mem_nil, or_false] at hk
  rcases hk with h | h | h | h <;> subst h <;>
    rw [condOpts_eq] <;> constructor
  · intro hnull
    rw [condStep_get_ne _ _ _ _ _ (by decide), condStep_get_ne _ _ _ _ _ (by decide),
      condStep_get_ne _ _ _ _ _ (by decide), condStep_of_null _ _ _ _ hnull, hbase]
  · intro v hv hvn
    rw [condStep_get_ne _ _ _ _ _ (by decide), condStep_get_ne _ _ _ _ _ (by decide),
      condStep_get_ne _ _ _ _ _ (by decide), condStep_of_set _ _ _ _ _ hv hvn,
      dictGet?_dictSet_self]
  · intro hnull
    rw [condStep_get_ne _ _ _ _ _ (by decide), condStep_get_ne _ _ _ _ _ (by decide),
      condStep_of_null _ _ _ _ hnull, condStep_get_ne _ _ _ _ _ (by decide), hbase]
  · intro v hv hvn
    rw [condStep_get_ne _ _ _ _ _ (by decide), condStep_get_ne _ _ _ _ _ (by decide),
      condStep_of_set _ _ _ _ _ hv hvn, dictGet?_dictSet_self]
  · intro hnull
    rw [condStep_get_ne _ _ _ _ _ (by decide), condStep_of_null _ _ _ _ hnull,
      condStep_get_ne _ _ _ _ _ (by decide), condStep_get_ne _ _ _ _ _ (by decide), hbase]
  · intro v hv hvn
    rw [condStep_get_ne _ _ _ _ _ (by decide), condStep_of_set _ _ _ _ _ hv hvn,
      dictGet?_dictSet_self]
  · intro hnull
    rw [condStep_of_null _ _ _ _ hnull, condStep_get_ne _ _ _ _ _ (by decide),
      condStep_get_ne _ _ _ _ _ (by decide), condStep_get_ne _ _ _ _ _ (by decide), hbase]
  · intro v hv hvn
    rw [condStep_of_set _ _ _ _ _ hv hvn, dictGet?_dictSet_self]

theorem rpts_diff_reorder (d : ASLData) (s : String) :
    ((d.diff).reorder s).rpts = d.rpts := rfl

theorem diffPairs_two_mul_le : ∀ l : List Int, 2 * (diffPairs l).length ≤ l.length
  | [] => by simp [diffPairs]
  | [a] => by simp [diffPairs]
  | a :: b :: rest => by
    have := diffPairs_two_mul_le rest
    simp only [diffPairs, List.length_cons]
    omega

theorem diff_reorder_ne_self (d : ASLData) (hv : d.vols ≠ []) (s : String) :
    (d.diff).reorder s ≠ d := by
  intro heq
  have hvols : diffPairs d.vols = d.vols := congrArg ASLData.vols heq
  have hle := diffPairs_two_mul_le d.vols
  rw [hvols] at hle
  have : d.vols.length = 0 := by omega
  exact hv (List.length_eq_zero.mp this)

theorem wsGetattr_set_item_self (s : WSState) (p : WPath) (k : String) (v : Value) :
    wsGetattr (set_item s p k v) p k = v := by
  unfold wsGetattr set_item
  exact wsGetattrRev_cons_self p k v s.attrs

/-- Claim C1: when the dataset reports variable repeat counts, `fit_multite`
raises the configuration `ValueError` immediately after the opening log
line: the workspace store is untouched, the trace holds only the log line
and the check, and no reordering, differencing, initialisation, option
assembly or engine invocation event exists.  When repeats are uniform the
check raises nothing and execution proceeds directly to the diff/reorder
normalisation. -/
theorem fit_multite_var_repeats_gate (c : Collab) (m : M) (p : WPath) (d : ASLData)
    (h : wsGetattr m.st p "asldata" = .data d) :
    (d.is_var_repeats = true →
      fit_multite c m p =
        (⟨m.st, m.tr ++ [.log "\nPerforming multi-TE model fitting:\n", .varRepeatsCheck true]⟩,
         .error (.valueError "Multi-TE ASL data with variable repeats not currently supported"))) ∧
    (d.is_var_repeats = false →
      (fit_multite c m p).1.tr.take (m.tr.length + 3) =
        m.tr ++ [.log "\nPerforming multi-TE model fitting:\n", .varRepeatsCheck false,
          .diffReorder d ((d.diff).reorder "etr")]) := by
  constructor
  · intro hv
    unfold fit_multite
    unfold_let
    simp only [wsLog_st, h, hv]
    simp [emit, wsLog]
  · intro hv
    unfold fit_multite
    unfold_let
    simp only [wsLog_st, h, hv]
    simp only [Bool.false_eq_true, if_false]
    set m₃ := emit (wsSetattr (emit (wsLog m "\nPerforming multi-TE model fitting:\n")
      (.varRepeatsCheck false)) p "asldata" (.data ((d.diff).reorder "etr")))
      (.diffReorder d ((d.diff).reorder "etr")) with hm₃def
    have hm₃tr : m₃.tr = m.tr ++ [.log "\nPerforming multi-TE model fitting:\n",
        .varRepeatsCheck false, .diffReorder d ((d.diff).reorder "etr")] := by
      simp [hm₃def]
    split
    next m' e hinit =>
      have hp := trPure_fit_multite_init c m₃ p
      rw [hinit] at hp
      simpa using hp.take_pre m.tr _ hm₃tr
    next m' u hinit =>
      have hp := trPure_fit_multite_init c m₃ p
      rw [hinit] at hp
      have hp2 := hp.trans (trPure_fit_multite_fabber c m' p)
      simpa using hp2.take_pre m.tr _ hm₃tr

/-- Witness for C1: the gate theorem applied at the variable-repeats example
dataset (immediate `ValueError`, nothing else happens) and at the
uniform-repeats example dataset (execution reaches the diff/reorder
normalisation). -/
theorem fit_multite_var_repeats_gate_witness :
    (fit_multite exCollab ⟨exStVar, []⟩ [] =
      (⟨exStVar, [.log "\nPerforming multi-TE model fitting:\n", .varRepeatsCheck true]⟩,
       .error (.valueError "Multi-TE ASL data with variable repeats not currently supported"))) ∧
    ((fit_multite exCollab ⟨exSt, []⟩ []).1.tr.take 3 =
      [.log "\nPerforming multi-TE model fitting:\n", .varRepeatsCheck false,
       .diffReorder exData ((exData.diff).reorder "etr")]) :=
  ⟨(fit_multite_var_repeats_gate exCollab ⟨exStVar, []⟩ [] exDataVar rfl).1 rfl,
   (fit_multite_var_repeats_gate exCollab ⟨exSt, []⟩ [] exData rfl).2 rfl⟩

/-- Claim C3 (amended): for a configuration with no user override mapping
and all four biophysical constants unset, `_fabber_options` returns exactly
the thirteen fixed keys with their literal values: variational Bayes,
white noise, the multi-TE model, the dataset and mask values, the three
timing lists, the single repeat count, exchange-time inference enabled,
both save flags, and an iteration cap of 30.  (The original claim without
the biophysical-constant proviso is refuted by
`_fabber_options_t1_extra_key_cex`.) -/
theorem _fabber_options_fixed_defaults (s : WSState) (p pr : WPath) (d : ASLData)
    (mv : Value) (r : Nat) (rs : List Nat)
    (h1 : wsGetattr s p "asldata" = .data d)
    (h2 : wsGetattr s p "rois" = .ws pr)
    (h3 : wsGetattr s pr "mask" = mv)
    (h4 : d.rpts = r :: rs)
    (h5 : wsGetattr s p "t1" = .null)
    (h6 : wsGetattr s p "t1b" = .null)
    (h7 : wsGetattr s p "t2" = .null)
    (h8 : wsGetattr s p "t2b" = .null)
    (h9 : wsGetattr s p "multite_options" = .null) :
    _fabber_options s p = .ok
      [("method", .str "vb"), ("noise", .str "white"), ("model", .str "asl_multite"),
       ("data", .data d), ("mask", mv), ("ti", .intList d.tis), ("te", .intList d.tes),
       ("tau", .intList d.taus), ("repeats", .int r), ("infertexch", .bool true),
       ("save-mean", .bool true), ("save-model-fit", .bool true),
       ("max-iterations", .int 30)] := by
  unfold _fabber_options _fabber_options_base
  simp only [h1, h2, h3, h4, h9]
  rw [condOpts_eq, condStep_of_null _ _ _ _ h8, condStep_of_null _ _ _ _ h7,
    condStep_of_null _ _ _ _ h6, condStep_of_null _ _ _ _ h5]
  rfl

/-- Witness for C3 (amended): the defaults theorem applied at the example
workspace, where every hypothesis holds by computation. -/
theorem _fabber_options_fixed_defaults_witness :
    _fabber_options exSt [] = .ok
      [("method", .str "vb"), ("noise", .str "white"), ("model", .str "asl_multite"),
       ("data", .data exData), ("mask", .img "mask"), ("ti", .intList [1, 2]),
       ("te", .intList [3, 4]), ("tau", .intList [5]), ("repeats", .int 2),
       ("infertexch", .bool true), ("save-mean", .bool true),
       ("save-model-fit", .bool true), ("max-iterations", .int 30)] :=
  _fabber_options_fixed_defaults exSt [] ["rois"] exData (.img "mask") 2 [2]
    rfl rfl rfl rfl rfl rfl rfl rfl rfl

/-- Counterexample to C3 as stated: a configuration with no user override
mapping but with the biophysical constant `t1` set produces an option
mapping whose key set strictly exceeds the thirteen fixed keys, so the
mapping does not contain exactly the fixed keys. -/
theorem _fabber_options_t1_extra_key_cex :
    wsGetattr exStT1 [] "multite_options" = .null ∧
    _fabber_options exStT1 [] = .ok
      [("method", .str "vb"), ("noise", .str "white"), ("model", .str "asl_multite"),
       ("data", .data exData), ("mask", .img "mask"), ("ti", .intList [1, 2]),
       ("te", .intList [3, 4]), ("tau", .intList [5]), ("repeats", .int 2),
       ("infertexch", .bool true), ("save-mean", .bool true),
       ("save-model-fit", .bool true), ("max-iterations", .int 30), ("t1", .int 1)] ∧
    "t1" ∉ (["method", "noise", "model", "data", "mask", "ti", "te", "tau", "repeats",
      "infertexch", "save-mean", "save-model-fit", "max-iterations"] : List String) :=
  ⟨rfl, rfl, by decide⟩

/-- Claim C4: the user override mapping is merged last with last-write-wins
per key: `_fabber_options` returns the update of the fixed/conditional
layers by the override mapping, every key of the override mapping appears
with the override value, and every other key keeps its value from the
fixed/conditional layers. -/
theorem _fabber_options_override (s : WSState) (p : WPath) (b ov : OptMap)
    (hbase : _fabber_options_base s p = .ok b)
    (hov : wsGetattr s p "multite_options" = .dict ov)
    (hnd : (ov.map Prod.fst).Nodup) :
    _fabber_options s p = .ok (dictUpdate b ov) ∧
    (∀ k v, dictGet? ov k = some v → dictGet? (dictUpdate b ov) k = some v) ∧
    (∀ k, dictGet? ov k = none → dictGet? (dictUpdate b ov) k = dictGet? b k) := by
  refine ⟨?_, fun k v h => dictGet?_dictUpdate_of_some _ _ _ _ hnd h,
    fun k h => dictGet?_dictUpdate_of_none _ _ _ h⟩
  unfold _fabber_options
  rw [hbase, hov]

/-- Witness for C4: with the override mapping raising `max-iterations` to
50, the assembled options hold 50 instead of the fixed default 30, and an
untouched key such as `method` keeps its fixed value. -/
theorem _fabber_options_override_witness :
    (_fabber_options exStOverride [] = .ok (dictUpdate
      [("method", .str "vb"), ("noise", .str "white"), ("model", .str "asl_multite"),
       ("data", .data exData), ("mask", .img "mask"), ("ti", .intList [1, 2]),
       ("te", .intList [3, 4]), ("tau", .intList [5]), ("repeats", .int 2),
       ("infertexch", .bool true), ("save-mean", .bool true),
       ("save-model-fit", .bool true), ("max-iterations", .int 30)]
      [("max-iterations", .int 50)])) ∧
    dictGet? (dictUpdate
      [("method", .str "vb"), ("noise", .str "white"), ("model", .str "asl_multite"),
       ("data", .data exData), ("mask", .img "mask"), ("ti", .intList [1, 2]),
       ("te", .intList [3, 4]), ("tau", .intList [5]), ("repeats", .int 2),
       ("infertexch", .bool true), ("save-mean", .bool true),
       ("save-model-fit", .bool true), ("max-iterations", .int 30)]
      [("max-iterations", .int 50)]) "max-iterations" = some (.int 50) :=
  ⟨(_fabber_options_override exStOverride []
      [("method", .str "vb"), ("noise", .str "white"), ("model", .str "asl_multite"),
       ("data", .data exData), ("mask", .img "mask"), ("ti", .intList [1, 2]),
       ("te", .intList [3, 4]), ("tau", .intList [5]), ("repeats", .int 2),
       ("infertexch", .bool true), ("save-mean", .bool true),
       ("save-model-fit", .bool true), ("max-iterations", .int 30)]
      [("max-iterations", .int 50)] rfl rfl (by simp)).1,
   (_fabber_options_override exStOverride []
      [("method", .str "vb"), ("noise", .str "white"), ("model", .str "asl_multite"),
       ("data", .data exData), ("mask", .img "mask"), ("ti", .intList [1, 2]),
       ("te", .intList [3, 4]), ("tau", .intList [5]), ("repeats", .int 2),
       ("infertexch", .bool true), ("save-mean", .bool true),
       ("save-model-fit", .bool true), ("max-iterations", .int 30)]
      [("max-iterations", .int 50)] rfl rfl (by simp)).2.1
      "max-iterations" (.int 50) rfl⟩

/-- Claim C5: for each of the four biophysical constants `t1`, `t1b`, `t2`,
`t2b`, when the user override mapping does not touch that key, the
assembled option mapping omits the key exactly when the constant reads as
`None` in configuration, and otherwise holds exactly the configured
value. -/
theorem _fabber_options_biophys (s : WSState) (p pr : WPath) (d : ASLData)
    (r : Nat) (rs : List Nat) (k : String) (o : OptMap)
    (h1 : wsGetattr s p "asldata" = .data d)
    (h2 : wsGetattr s p "rois" = .ws pr)
    (h4 : d.rpts = r :: rs)
    (hk : k ∈ condKeys)
    (hov : wsGetattr s p "multite_options" = .null ∨
      ∃ ov, wsGetattr s p "multite_options" = .dict ov ∧ dictGet? ov k = none)
    (ho : _fabber_options s p = .ok o) :
    (wsGetattr s p k = .null → dictGet? o k = none) ∧
    (∀ v, wsGetattr s p k = v → v.isNull = false → dictGet? o k = some v) := by
  unfold _fabber_options _fabber_options_base at ho
  simp only [h1, h2, h4] at ho
  have hcond := condOpts_get_mem s p
    (fabberFixed (.data d) (wsGetattr s pr "mask") d.tis d.tes d.taus r) k hk
    (fabberFixed_condKeys_none _ _ _ _ _ _ _ hk)
  rcases hov with hnull | ⟨ov, hdict, hovk⟩
  · rw [hnull] at ho
    have hoo : o = dictUpdate (condOpts s p
        (fabberFixed (.data d) (wsGetattr s pr "mask") d.tis d.tes d.taus r)) [] := by
      cases ho
      rfl
    subst hoo
    exact hcond
  · rw [hdict] at ho
    have hoo : o = dictUpdate (condOpts s p
        (fabberFixed (.data d) (wsGetattr s pr "mask") d.tis d.tes d.taus r)) ov := by
      cases ho
      rfl
    subst hoo
    constructor
    · intro hnull
      rw [dictGet?_dictUpdate_of_none _ _ _ hovk]
      exact hcond.1 hnull
    · intro v hv hvn
      rw [dictGet?_dictUpdate_of_none _ _ _ hovk]
      exact hcond.2 v hv hvn

/-- Witness for C5: at the example workspace `t1` is unset and the key is
absent from the assembled mapping; at the variant with `t1` configured the
key appears with exactly that value. -/
theorem _fabber_options_biophys_witness :
    dictGet?
      [("method", .str "vb"), ("noise", .str "white"), ("model", .str "asl_multite"),
       ("data", .data exData), ("mask", .img "mask"), ("ti", .intList [1, 2]),
       ("te", .intList [3, 4]), ("tau", .intList [5]), ("repeats", .int 2),
       ("infertexch", .bool true), ("save-mean", .bool true),
       ("save-model-fit", .bool true), ("max-iterations", .int 30)] "t1" = none ∧
    dictGet?
      [("method", .str "vb"), ("noise", .str "white"), ("model", .str "asl_multite"),
       ("data", .data exData), ("mask", .img "mask"), ("ti", .intList [1, 2]),
       ("te", .intList [3, 4]), ("tau", .intList [5]), ("repeats", .int 2),
       ("infertexch", .bool true), ("save-mean", .bool true),
       ("save-model-fit", .bool true), ("max-iterations", .int 30),
       ("t1", .int 1)] "t1" = some (.int 1) :=
  ⟨(_fabber_options_biophys exSt [] ["rois"] exData 2 [2] "t1"
      [("method", .str "vb"), ("noise", .str "white"), ("model", .str "asl_multite"),
       ("data", .data exData), ("mask", .img "mask"), ("ti", .intList [1, 2]),
       ("te", .intList [3, 4]), ("tau", .intList [5]), ("repeats", .int 2),
       ("infertexch", .bool true), ("save-mean", .bool true),
       ("save-model-fit", .bool true), ("max-iterations", .int 30)]
      rfl rfl rfl (by simp [condKeys]) (Or.inl rfl) rfl).1 rfl,
   (_fabber_options_biophys exStT1 [] ["rois"] exData 2 [2] "t1"
      [("method", .str "vb"), ("noise", .str "white"), ("model", .str "asl_multite"),
       ("data", .data exData), ("mask", .img "mask"), ("ti", .intList [1, 2]),
       ("te", .intList [3, 4]), ("tau", .intList [5]), ("repeats", .int 2),
       ("infertexch", .bool true), ("save-mean", .bool true),
       ("save-model-fit", .bool true), ("max-iterations", .int 30), ("t1", .int 1)]
      rfl rfl rfl (by simp [condKeys]) (Or.inl rfl) rfl).2 (.int 1) rfl rfl⟩

/-- Claim C6: on a successful engine call whose result carries a `logfile`
entry, `_run_fabber` writes every key of the result mapping as an
attribute of the target namespace, and registers the log file path for
persistence under `"logfile"` exactly when the log file value is not
`None` and the workspace has a persistence directory configured. -/
theorem _run_fabber_success (fab : OptMap → Except PyErr ResMap) (m : M)
    (p : WPath) (o : OptMap) (desc : String) (res : ResMap) (lv : Value)
    (hf : fab o = .ok res) (hnd : (res.map Prod.fst).Nodup)
    (hl : dictGet? res "logfile" = some lv) :
    (_run_fabber fab m p o desc).2 = .ok res ∧
    (∀ k v, (k, v) ∈ res → wsGetattr (_run_fabber fab m p o desc).1.st p k = v) ∧
    (lv.isNull = false → (wsGetattr (writeAll m.st p res) p "savedir").isNull = false →
      (_run_fabber fab m p o desc).1.st.saved = (p, "logfile", lv) :: m.st.saved) ∧
    (lv.isNull = true ∨ (wsGetattr (writeAll m.st p res) p "savedir").isNull = true →
      (_run_fabber fab m p o desc).1.st.saved = m.st.saved) := by
  unfold _run_fabber
  dsimp only
  simp only [hf, hl, emit_st, wsLog_st]
  split
  next hc =>
    refine ⟨rfl, fun k v hmem => wsGetattr_writeAll_mem _ _ _ _ _ hnd hmem, ?_, ?_⟩
    · intro ha hb
      rw [ha, hb] at hc
      simp at hc
    · intro _
      exact writeAll_saved m.st p res
  next hc =>
    rw [Bool.or_eq_true, not_or, Bool.not_eq_true, Bool.not_eq_true] at hc
    refine ⟨rfl, ?_, ?_, ?_⟩
    · intro k v hmem
      by_cases hk : k = "logfile"
      · subst hk
        have hv : v = lv := by
          have := dictGet?_of_mem_nodup hnd hmem
          rw [hl] at this
          exact (Option.some.injEq _ _ ▸ this).symm
        subst hv
        exact wsGetattr_set_item_self _ _ _ _
      · rw [wsGetattr_set_item_ne _ _ _ _ _ _ (fun hc2 => hk hc2.symm)]
        exact wsGetattr_writeAll_mem _ _ _ _ _ hnd hmem
    · intro _ _
      show ((p, "logfile", lv) :: (writeAll m.st p res).saved) = _
      rw [writeAll_saved]
    · intro hor
      rcases hor with ha | hb
      · rw [ha] at hc
        simp at hc
      · rw [hb] at hc
        simp at hc

/-- Witness for C6: the engine result exposes `mean_ftiss` on the target
namespace and the non-null log file is registered for persistence, given
the configured persistence directory. -/
theorem _run_fabber_success_witness :
    (_run_fabber exCollab.fabber ⟨exSt, []⟩ ["multite"] [] "step").2 =
      .ok [("mean_ftiss", .img "ftiss"), ("logfile", .str "/tmp/log.txt")] ∧
    wsGetattr (_run_fabber exCollab.fabber ⟨exSt, []⟩ ["multite"] [] "step").1.st
      ["multite"] "mean_ftiss" = .img "ftiss" ∧
    (_run_fabber exCollab.fabber ⟨exSt, []⟩ ["multite"] [] "step").1.st.saved =
      [(["multite"], "logfile", .str "/tmp/log.txt")] :=
  ⟨(_run_fabber_success exCollab.fabber ⟨exSt, []⟩ ["multite"] [] "step"
      [("mean_ftiss", .img "ftiss"), ("logfile", .str "/tmp/log.txt")]
      (.str "/tmp/log.txt") rfl (by simp) rfl).1,
   (_run_fabber_success exCollab.fabber ⟨exSt, []⟩ ["multite"] [] "step"
      [("mean_ftiss", .img "ftiss"), ("logfile", .str "/tmp/log.txt")]
      (.str "/tmp/log.txt") rfl (by simp) rfl).2.1 "mean_ftiss" (.img "ftiss") (by simp),
   (_run_fabber_success exCollab.fabber ⟨exSt, []⟩ ["multite"] [] "step"
      [("mean_ftiss", .img "ftiss"), ("logfile", .str "/tmp/log.txt")]
      (.str "/tmp/log.txt") rfl (by simp) rfl).2.2.1 rfl rfl⟩

/-- Claim C9: when the engine result mapping lacks the `logfile` key,
`_run_fabber` fails with a `KeyError`, but only after every key of the
result has been written into the target namespace: the failure is not
atomic and the namespace keeps all result attributes. -/
theorem _run_fabber_missing_logfile (fab : OptMap → Except PyErr ResMap) (m : M)
    (p : WPath) (o : OptMap) (desc : String) (res : ResMap)
    (hf : fab o = .ok res) (hnd : (res.map Prod.fst).Nodup)
    (hl : dictGet? res "logfile" = none) :
    (_run_fabber fab m p o desc).2 = .error (.keyError "logfile") ∧
    (∀ k v, (k, v) ∈ res → wsGetattr (_run_fabber fab m p o desc).1.st p k = v) := by
  unfold _run_fabber
  dsimp only
  simp only [hf, hl]
  exact ⟨trivial, fun k v hmem => wsGetattr_writeAll_mem _ _ _ _ _ hnd hmem⟩

/-- Witness for C9: an engine returning only `mean_ftiss` triggers the
`KeyError`, yet the attribute is already visible on the namespace. -/
theorem _run_fabber_missing_logfile_witness :
    (_run_fabber (fun _ => .ok [("mean_ftiss", .img "ftiss")])
      ⟨exSt, []⟩ ["multite"] [] "step").2 = .error (.keyError "logfile") ∧
    wsGetattr (_run_fabber (fun _ => .ok [("mean_ftiss", .img "ftiss")])
      ⟨exSt, []⟩ ["multite"] [] "step").1.st ["multite"] "mean_ftiss" = .img "ftiss" :=
  ⟨(_run_fabber_missing_logfile (fun _ => .ok [("mean_ftiss", .img "ftiss")])
      ⟨exSt, []⟩ ["multite"] [] "step" [("mean_ftiss", .img "ftiss")]
      rfl (by simp) rfl).1,
   (_run_fabber_missing_logfile (fun _ => .ok [("mean_ftiss", .img "ftiss")])
      ⟨exSt, []⟩ ["multite"] [] "step" [("mean_ftiss", .img "ftiss")]
      rfl (by simp) rfl).2 "mean_ftiss" (.img "ftiss") (by simp)⟩

/-- Claim C7: `model_multite` attempts its four pipeline steps (multi-TE
fit, native-space output, re-registration, transformed-space output) in
this fixed order: the step markers recorded in the trace are always a
prefix of the four-step sequence, with no repetition and no reordering,
and on success exactly the four steps ran, each once.  A failing step
leaves the later markers absent, reflecting that an exception aborts the
remaining steps, and the call returns no value beyond the propagated
outcome. -/
theorem model_multite_step_order (c : Collab) (m : M) (p : WPath) :
    ∃ n, n ≤ 4 ∧
      stepMarkers (model_multite c m p).1.tr = stepMarkers m.tr ++ allSteps.take n ∧
      ((model_multite c m p).2 = .ok () → n = 4) := by
  unfold model_multite
  unfold_let
  split
  next q hq =>
    have hfitPure := trPure_fit_multite c (emit (wsSub m p "multite") .stepFit) q
    split
    next m' e hfm =>
      rw [hfm] at hfitPure
      have hm' : stepMarkers m'.tr = stepMarkers m.tr ++ [.fit] := by
        have := hfitPure.markers
        simpa [stepMarkers_append] using this
      exact ⟨1, by norm_num, by simpa [allSteps] using hm', by intro h; cases h⟩
    next m' u hfm =>
      rw [hfm] at hfitPure
      have hm' : stepMarkers m'.tr = stepMarkers m.tr ++ [.fit] := by
        have := hfitPure.markers
        simpa [stepMarkers_append] using this
      unfold_let
      split
      next po pm hpo hpm =>
        split
        next st e hon =>
          refine ⟨2, by norm_num, ?_, by intro h; cases h⟩
          simp [stepMarkers_append, hm', allSteps]
        next st u hon =>
          split
          next po2 hpo2 =>
            split
            next pn hpn =>
              split
              next st2 e hreg =>
                refine ⟨3, by norm_num, ?_, by intro h; cases h⟩
                simp [stepMarkers_append, hm', allSteps]
              next st2 u hreg =>
                split
                next po3 hpo3 =>
                  split
                  next st3 e htrans =>
                    refine ⟨4, by norm_num, ?_, by intro h; cases h⟩
                    simp [stepMarkers_append, hm', allSteps]
                  next st3 u htrans =>
                    refine ⟨4, by norm_num, ?_, fun _ => rfl⟩
                    simp [stepMarkers_append, hm', allSteps]
                next hpo3 =>
                  refine ⟨4, by norm_num, ?_, by intro h; cases h⟩
                  simp [stepMarkers_append, hm', allSteps]
            next hpn =>
              refine ⟨2, by norm_num, ?_, by intro h; cases h⟩
              simp [stepMarkers_append, hm', allSteps]
          next hpo2 =>
            refine ⟨2, by norm_num, ?_, by intro h; cases h⟩
            simp [stepMarkers_append, hm', allSteps]
      next hpopm =>
        refine ⟨2, by norm_num, ?_, by intro h; cases h⟩
        simp [stepMarkers_append, hm', allSteps]
  next hq =>
    refine ⟨1, by norm_num, ?_, by intro h; cases h⟩
    simp [stepMarkers_append, allSteps]

theorem _fabber_options_data (s : WSState) (p pr : WPath) (d : ASLData)
    (r : Nat) (rs : List Nat)
    (ha : wsGetattr s p "asldata" = .data d)
    (hr : wsGetattr s p "rois" = .ws pr)
    (h5 : d.rpts = r :: rs)
    (h6 : wsGetattr s p "multite_options" = .null ∨
      ∃ ov, wsGetattr s p "multite_options" = .dict ov ∧ dictGet? ov "data" = none) :
    ∃ o, _fabber_options s p = .ok o ∧ dictGet? o "data" = some (.data d) := by
  unfold _fabber_options _fabber_options_base
  simp only [ha, hr, h5]
  have hbase : dictGet? (condOpts s p
      (fabberFixed (.data d) (wsGetattr s pr "mask") d.tis d.tes d.taus r)) "data" =
      some (.data d) := by
    rw [condOpts_get_not_mem _ _ _ _ (by decide), fabberFixed_get_data]
  rcases h6 with hnull | ⟨ov, hdict, hovk⟩
  · rw [hnull]
    exact ⟨_, rfl, by simpa [dictUpdate] using hbase⟩
  · rw [hdict]
    exact ⟨_, rfl, by rw [dictGet?_dictUpdate_of_none _ _ _ hovk]; exact hbase⟩

theorem fit_multite_init_flag_false (c : Collab) (m : M) (p : WPath)
    (h : (wsGetattr m.st p "multite_init").truthy = false) :
    fit_multite_init c m p = (m, .ok ()) := by
  unfold fit_multite_init
  simp [h]

theorem fit_multite_init_flag_true_err (c : Collab) (m : M) (p : WPath)
    (st' : WSState) (e : PyErr)
    (hfl : (wsGetattr m.st p "multite_init").truthy = true)
    (hrun : c.fit_init (wsSubSt m.st p "init") (p ++ ["init"]) = (st', .error e)) :
    fit_multite_init c m p =
      (⟨st', m.tr ++ [.subCreate (p ++ ["init"]), .fitInitCall (p ++ ["init"])]⟩,
       .error e) := by
  unfold fit_multite_init
  unfold_let
  simp only [hfl, if_true, emit_st, emit_tr, wsSub_st, wsSub_tr, wsGetattr_sub_self]
  rw [hrun]
  simp

theorem fit_multite_init_flag_true_ok (c : Collab) (m : M) (p : WPath) (st' : WSState)
    (hfl : (wsGetattr m.st p "multite_init").truthy = true)
    (hrun : c.fit_init (wsSubSt m.st p "init") (p ++ ["init"]) = (st', .ok ()))
    (hinitlook : wsGetattr st' p "init" = .ws (p ++ ["init"])) :
    fit_multite_init c m p =
      (⟨st', m.tr ++ [.subCreate (p ++ ["init"]), .fitInitCall (p ++ ["init"]),
        .initMvnRead (wsGetattr st' (p ++ ["init"]) "initial_mvn")]⟩, .ok ()) := by
  unfold fit_multite_init
  unfold_let
  simp only [hfl, if_true, emit_st, emit_tr, wsSub_st, wsSub_tr, wsGetattr_sub_self]
  rw [hrun]
  simp only [hinitlook]
  simp [emit]

theorem fabberCalls_fit_multite_fabber (c : Collab) (m : M) (p : WPath) (o : OptMap)
    (hmult : wsGetattr m.st p "multite" = .ws p)
    (hopt : _fabber_options m.st p = .ok o) :
    ∃ t, (fit_multite_fabber c m p).1.tr = m.tr ++ t ∧ fabberCalls t = [o] := by
  unfold fit_multite_fabber
  simp only [hmult, hopt]
  unfold_let
  rcases hrun : _run_fabber c.fabber (wsSub (emit m (.printed o)) p "finalstep")
      (p ++ ["finalstep"]) o "Running Fabber using multi-TE model" with ⟨mr, r⟩
  have hdec := _run_fabber_calls c.fabber (wsSub (emit m (.printed o)) p "finalstep")
      (p ++ ["finalstep"]) o "Running Fabber using multi-TE model"
  rw [hrun] at hdec
  obtain ⟨t, htr, hcalls⟩ := hdec
  simp only [wsSub_tr, emit_tr] at htr
  cases r with
  | error e =>
    refine ⟨[.printed o, .subCreate (p ++ ["finalstep"])] ++ t, ?_, ?_⟩
    · simpa [List.append_assoc] using htr
    · simp [fabberCalls_append, hcalls]
  | ok res =>
    refine ⟨[.printed o, .subCreate (p ++ ["finalstep"])] ++ t ++
      [.log "\nDONE multi-TE decoding\n"], ?_, ?_⟩
    · show mr.tr ++ [Event.log "\nDONE multi-TE decoding\n"] = _
      simp only [htr]
      simp
    · simp [fabberCalls_append, hcalls]

/-- Claim C2 (amended): for a uniform-repeats dataset in the canonical
pipeline shape, every option mapping passed to the inference engine by
`fit_multite` carries as its `data` entry exactly the input dataset after
the temporal-difference operation followed by reordering with
`out_order="etr"`, provided the user override mapping does not supply a
`data` key of its own; no other configuration can disable the transform.
(The original unconditional claim is refuted by
`fit_multite_engine_data_cex`: an override mapping with a `data` key
replaces the dataset passed to the engine.) -/
theorem fit_multite_engine_data (c : Collab) (m : M) (p pr : WPath) (d : ASLData)
    (r : Nat) (rs : List Nat)
    (h1 : wsGetattr m.st p "asldata" = .data d)
    (h2 : d.is_var_repeats = false)
    (h3 : wsGetattr m.st p "multite" = .ws p)
    (h4 : wsGetattr m.st p "rois" = .ws pr)
    (h5 : d.rpts = r :: rs)
    (h6 : wsGetattr m.st p "multite_options" = .null ∨
      ∃ ov, wsGetattr m.st p "multite_options" = .dict ov ∧ dictGet? ov "data" = none)
    (hfi : ∀ st k, wsGetattr ((c.fit_init st (p ++ ["init"])).1) p k = wsGetattr st p k) :
    ∀ o, o ∈ fabberCalls ((fit_multite c m p).1.tr.drop m.tr.length) →
      dictGet? o "data" = some (.data ((d.diff).reorder "etr")) := by
  unfold fit_multite
  unfold_let
  simp only [wsLog_st, h1, h2, Bool.false_eq_true, if_false]
  have hs1a : wsGetattr (wsSetattrSt m.st p "asldata" (.data ((d.diff).reorder "etr")))
      p "asldata" = .data ((d.diff).reorder "etr") :=
    wsGetattr_setattr_self m.st p "asldata" _
  have hs1m : wsGetattr (wsSetattrSt m.st p "asldata" (.data ((d.diff).reorder "etr")))
      p "multite" = .ws p := by
    rw [wsGetattr_setattr_ne _ _ _ _ _ _ (by decide)]
    exact h3
  have hs1r : wsGetattr (wsSetattrSt m.st p "asldata" (.data ((d.diff).reorder "etr")))
      p "rois" = .ws pr := by
    rw [wsGetattr_setattr_ne _ _ _ _ _ _ (by decide)]
    exact h4
  have hs1o : wsGetattr (wsSetattrSt m.st p "asldata" (.data ((d.diff).reorder "etr")))
      p "multite_options" = .null ∨
      ∃ ov, wsGetattr (wsSetattrSt m.st p "asldata" (.data ((d.diff).reorder "etr")))
        p "multite_options" = .dict ov ∧ dictGet? ov "data" = none := by
    have hpres : wsGetattr (wsSetattrSt m.st p "asldata" (.data ((d.diff).reorder "etr")))
        p "multite_options" = wsGetattr m.st p "multite_options" :=
      wsGetattr_setattr_ne _ _ _ _ _ _ (by decide)
    exact h6.imp (fun h => hpres.trans h)
      (fun h => match h with | ⟨ov, hov, hk⟩ => ⟨ov, hpres.trans hov, hk⟩)
  have hrpts : ((d.diff).reorder "etr").rpts = r :: rs := by
    rw [rpts_diff_reorder]
    exact h5
  cases hflag : (wsGetattr (wsSetattrSt m.st p "asldata"
      (.data ((d.diff).reorder "etr"))) p "multite_init").truthy with
  | false =>
    rw [fit_multite_init_flag_false c _ p hflag]
    obtain ⟨o, ho, hod⟩ := _fabber_options_data
      (wsSetattrSt m.st p "asldata" (.data ((d.diff).reorder "etr"))) p pr
      ((d.diff).reorder "etr") r rs hs1a hs1r hrpts hs1o
    obtain ⟨t, htr, hcalls⟩ := fabberCalls_fit_multite_fabber c
      (emit (wsSetattr (emit (wsLog m "\nPerforming multi-TE model fitting:\n")
        (.varRepeatsCheck false)) p "asldata" (.data ((d.diff).reorder "etr")))
        (.diffReorder d ((d.diff).reorder "etr"))) p o hs1m ho
    intro o' hmem
    rw [htr] at hmem
    simp only [emit_tr, wsSetattr_tr, wsLog_tr, List.append_assoc, List.cons_append,
      List.nil_append] at hmem
    rw [List.drop_left] at hmem
    simp only [fabberCalls_cons_log, fabberCalls_cons_check, fabberCalls_cons_diff,
      hcalls, List.mem_singleton] at hmem
    rw [hmem]
    exact hod
  | true =>
    rcases hfr : c.fit_init (wsSubSt (wsSetattrSt m.st p "asldata"
        (.data ((d.diff).reorder "etr"))) p "init") (p ++ ["init"]) with ⟨st', rr⟩
    have hst' : ∀ k, wsGetattr st' p k = wsGetattr (wsSubSt (wsSetattrSt m.st p "asldata"
        (.data ((d.diff).reorder "etr"))) p "init") p k := by
      intro k
      have hh := hfi (wsSubSt (wsSetattrSt m.st p "asldata"
        (.data ((d.diff).reorder "etr"))) p "init") k
      rw [hfr] at hh
      exact hh
    cases rr with
    | error e =>
      rw [fit_multite_init_flag_true_err c _ p st' e hflag hfr]
      intro o' hmem
      simp only [emit_tr, wsSetattr_tr, wsLog_tr, List.append_assoc, List.cons_append,
        List.nil_append] at hmem
      rw [List.drop_left] at hmem
      simp at hmem
    | ok u =>
      cases u
      have hlook : wsGetattr st' p "init" = .ws (p ++ ["init"]) := by
        rw [ hst' "init", wsGetattr_sub_self]
      rw [fit_multite_init_flag_true_ok c _ p st' hflag hfr hlook]
      have ha' : wsGetattr st' p "asldata" = .data ((d.diff).reorder "etr") := by
        rw [ hst' "asldata", wsGetattr_sub_ne _ _ _ _ _ (by decide)]
        exact hs1a
      have hm' : wsGetattr st' p "multite" = .ws p := by
        rw [ hst' "multite", wsGetattr_sub_ne _ _ _ _ _ (by decide)]
        exact hs1m
      have hr' : wsGetattr st' p "rois" = .ws pr := by
        rw [ hst' "rois", wsGetattr_sub_ne _ _ _ _ _ (by decide)]
        exact hs1r
      have ho' : wsGetattr st' p "multite_options" = .null ∨
          ∃ ov, wsGetattr st' p "multite_options" = .dict ov ∧
            dictGet? ov "data" = none := by
        have hpres : wsGetattr st' p "multite_options" =
            wsGetattr (wsSetattrSt m.st p "asldata" (.data ((d.diff).reorder "etr")))
              p "multite_options" := by
          rw [ hst' "multite_options", wsGetattr_sub_ne _ _ _ _ _ (by decide)]
        exact hs1o.imp (fun h => hpres.trans h)
          (fun h => match h with | ⟨ov, hov, hk⟩ => ⟨ov, hpres.trans hov, hk⟩)
      obtain ⟨o, ho, hod⟩ := _fabber_options_data st' p pr
        ((d.diff).reorder "etr") r rs ha' hr' hrpts ho'
      obtain ⟨t, htr, hcalls⟩ := fabberCalls_fit_multite_fabber c
        (⟨st', (emit (wsSetattr (emit (wsLog m "\nPerforming multi-TE model fitting:\n")
          (.varRepeatsCheck false)) p "asldata" (.data ((d.diff).reorder "etr")))
          (.diffReorder d ((d.diff).reorder "etr"))).tr ++
          [.subCreate (p ++ ["init"]), .fitInitCall (p ++ ["init"]),
           .initMvnRead (wsGetattr st' (p ++ ["init"]) "initial_mvn")]⟩ : M) p o hm' ho
      intro o' hmem
      rw [htr] at hmem
      simp only [emit_tr, wsSetattr_tr, wsLog_tr, List.append_assoc, List.cons_append,
        List.nil_append] at hmem
      rw [List.drop_left] at hmem
      simp only [fabberCalls_cons_log, fabberCalls_cons_check, fabberCalls_cons_diff,
        fabberCalls_cons_sub, fabberCalls_cons_fitInit, fabberCalls_cons_mvn,
        hcalls, List.mem_singleton] at hmem
      rw [hmem]
      exact hod

/-- Counterexample to C2 as stated: with a user override mapping supplying
a `data` key, the single engine invocation of `fit_multite` receives the
override value instead of the differenced and reordered dataset, so the
transform is not beyond the reach of configuration. -/
theorem fit_multite_engine_data_cex :
    (fabberCalls ((fit_multite exCollab ⟨exStDataOverride, []⟩ ["multite"]).1.tr)).map
        (fun o => dictGet? o "data") = [some (.str "hacked")] ∧
    Value.str "hacked" ≠ .data ((exData.diff).reorder "etr") ∧
    wsGetattr exStDataOverride ["multite"] "asldata" = .data exData ∧
    exData.is_var_repeats = false :=
  ⟨rfl, fun h => Value.noConfusion h, rfl, rfl⟩

/-- Witness for C2 (amended): at the example pipeline workspace the single
engine call receives exactly the diff-then-reorder dataset as `data`. -/
theorem fit_multite_engine_data_witness :
    dictGet? (fabberFixed (.data ((exData.diff).reorder "etr")) (.img "mask")
      [1, 2] [3, 4] [5] 2) "data" = some (.data ((exData.diff).reorder "etr")) :=
  fit_multite_engine_data exCollab ⟨exSt, []⟩ ["multite"] ["rois"] exData 2 [2]
    rfl rfl rfl rfl rfl (Or.inl rfl)
    (fun st k => wsGetattr_setattr_longer st (["multite"] ++ ["init"]) "initial_mvn"
      (.img "mvn") ["multite"] k (by decide))
    (fabberFixed (.data ((exData.diff).reorder "etr")) (.img "mask") [1, 2] [3, 4] [5] 2)
    (by exact List.mem_singleton_self _)

theorem wsGetattr_set_item_longer (s : WSState) (p' : WPath) (k' : String) (v : Value)
    (p : WPath) (k : String) (h : p.length < p'.length) :
    wsGetattr (set_item s p' k' v) p k = wsGetattr s p k := by
  unfold wsGetattr set_item
  apply wsGetattrRev_cons_ne
  intro anc hl hc
  have hlen := congrArg List.length hc
  simp only [List.length_append, List.length_cons, List.length_nil] at hlen
  rw [List.length_reverse] at hl
  omega

theorem _run_fabber_subs (fab : OptMap → Except PyErr ResMap) (m : M) (p : WPath)
    (options : OptMap) (desc : String) :
    (_run_fabber fab m p options desc).1.st.subsCreated = m.st.subsCreated := by
  unfold _run_fabber
  dsimp only
  cases hf : fab options with
  | error e => rfl
  | ok result =>
    dsimp only
    cases hl : dictGet? result "logfile" with
    | none =>
      simp only [hl]
      exact writeAll_subsCreated m.st p result
    | some lv =>
      simp only [hl]
      split
      · exact writeAll_subsCreated m.st p result
      · show (set_item (writeAll m.st p result) p "logfile" lv).subsCreated = _
        show (writeAll m.st p result).subsCreated = _
        exact writeAll_subsCreated m.st p result

theorem _run_fabber_noInit (fab : OptMap → Except PyErr ResMap) (m : M) (p : WPath)
    (options : OptMap) (desc : String) (q0 : WPath) :
    ∃ t, (_run_fabber fab m p options desc).1.tr = m.tr ++ t ∧
      t.all (noInitEvent q0) = true := by
  unfold _run_fabber
  dsimp only
  cases hf : fab options with
  | error e =>
    exact ⟨[.log ("  - " ++ desc ++ "     "), .fabberCall options], by simp, rfl⟩
  | ok result =>
    dsimp only
    cases hl : dictGet? result "logfile" with
    | none =>
      simp only [hl]
      exact ⟨[.log ("  - " ++ desc ++ "     "), .fabberCall options, .log " - DONE\n"],
        by simp, rfl⟩
    | some lv =>
      simp only [hl]
      split
      · exact ⟨[.log ("  - " ++ desc ++ "     "), .fabberCall options, .log " - DONE\n"],
          by simp, rfl⟩
      · exact ⟨[.log ("  - " ++ desc ++ "     "), .fabberCall options, .log " - DONE\n"],
          by simp, rfl⟩

theorem _run_fabber_getattr_longer (fab : OptMap → Except PyErr ResMap) (m : M)
    (p' : WPath) (options : OptMap) (desc : String) (p : WPath) (k : String)
    (h : p.length < p'.length) :
    wsGetattr (_run_fabber fab m p' options desc).1.st p k = wsGetattr m.st p k := by
  unfold _run_fabber
  dsimp only
  cases hf : fab options with
  | error e => rfl
  | ok result =>
    dsimp only
    cases hl : dictGet? result "logfile" with
    | none =>
      simp only [hl]
      exact wsGetattr_writeAll_longer m.st p' result p k h
    | some lv =>
      simp only [hl]
      split
      · exact wsGetattr_writeAll_longer m.st p' result p k h
      · show wsGetattr (set_item (writeAll m.st p' result) p' "logfile" lv) p k = _
        rw [wsGetattr_set_item_longer _ _ _ _ _ _ h]
        exact wsGetattr_writeAll_longer m.st p' result p k h

theorem wsSubSt_subsCreated (s : WSState) (p : WPath) (name : String) :
    (wsSubSt s p name).subsCreated = (p ++ [name]) :: s.subsCreated := rfl

theorem fit_multite_fabber_noInit (c : Collab) (m : M) (p : WPath) (q0 : WPath)
    (hq0 : ∀ q : WPath, q ++ ["finalstep"] ≠ q0) :
    (∃ t, (fit_multite_fabber c m p).1.tr = m.tr ++ t ∧ t.all (noInitEvent q0) = true) ∧
    (q0 ∈ (fit_multite_fabber c m p).1.st.subsCreated ↔ q0 ∈ m.st.subsCreated) := by
  unfold fit_multite_fabber
  split
  next q hq =>
    split
    next e he => exact ⟨⟨[], by simp, rfl⟩, Iff.rfl⟩
    next options hopt =>
      unfold_let
      rcases hrun : _run_fabber c.fabber (wsSub (emit m (.printed options)) q "finalstep")
          (q ++ ["finalstep"]) options "Running Fabber using multi-TE model" with ⟨mr, r⟩
      have hdec := _run_fabber_noInit c.fabber
        (wsSub (emit m (.printed options)) q "finalstep")
        (q ++ ["finalstep"]) options "Running Fabber using multi-TE model" q0
      rw [hrun] at hdec
      obtain ⟨t, htr, hall⟩ := hdec
      simp only [wsSub_tr, emit_tr] at htr
      have hsubs := _run_fabber_subs c.fabber
        (wsSub (emit m (.printed options)) q "finalstep")
        (q ++ ["finalstep"]) options "Running Fabber using multi-TE model"
      rw [hrun] at hsubs
      simp only [wsSub_st, emit_st, wsSubSt_subsCreated] at hsubs
      have hne : ((q ++ ["finalstep"]) != q0) = true := bne_iff_ne.mpr (hq0 q)
      cases r with
      | error e =>
        refine ⟨⟨[.printed options, .subCreate (q ++ ["finalstep"])] ++ t, ?_, ?_⟩, ?_⟩
        · simpa [List.append_assoc] using htr
        · simp [List.all_append, noInitEvent, hall, hne]
        · show q0 ∈ mr.st.subsCreated ↔ _
          rw [hsubs]
          simp [List.mem_cons, hq0 q]
          intro hc
          exact absurd hc.symm (hq0 q)
      | ok res =>
        refine ⟨⟨[.printed options, .subCreate (q ++ ["finalstep"])] ++ t ++
          [.log "\nDONE multi-TE decoding\n"], ?_, ?_⟩, ?_⟩
        · show mr.tr ++ [Event.log "\nDONE multi-TE decoding\n"] = _
          simp only [htr]
          simp
        · simp [List.all_append, noInitEvent, hall, hne]
        · show q0 ∈ mr.st.subsCreated ↔ _
          rw [hsubs]
          simp [List.mem_cons, hq0 q]
          intro hc
          exact absurd hc.symm (hq0 q)
  next hq => exact ⟨⟨[], by simp, rfl⟩, Iff.rfl⟩

theorem fit_multite_fabber_asldata (c : Collab) (m : M) (p : WPath)
    (hmult : wsGetattr m.st p "multite" = .ws p) :
    wsGetattr (fit_multite_fabber c m p).1.st p "asldata" =
      wsGetattr m.st p "asldata" := by
  unfold fit_multite_fabber
  simp only [hmult]
  split
  next e he => rfl
  next options hopt =>
    unfold_let
    rcases hrun : _run_fabber c.fabber (wsSub (emit m (.printed options)) p "finalstep")
        (p ++ ["finalstep"]) options "Running Fabber using multi-TE model" with ⟨mr, r⟩
    have hpr := _run_fabber_getattr_longer c.fabber
      (wsSub (emit m (.printed options)) p "finalstep")
      (p ++ ["finalstep"]) options "Running Fabber using multi-TE model" p "asldata"
      (by simp)
    rw [hrun] at hpr
    have hsub : wsGetattr (wsSub (emit m (.printed options)) p "finalstep").st
        p "asldata" = wsGetattr m.st p "asldata" := by
      simp only [wsSub_st, emit_st]
      exact wsGetattr_sub_ne _ _ _ _ _ (by decide)
    cases r with
    | error e => exact hpr.trans hsub
    | ok res =>
      show wsGetattr mr.st p "asldata" = _
      exact hpr.trans hsub

theorem take_append_le (a b c : List Event) (n : Nat) (hn : n ≤ b.length) :
    (a ++ b ++ c).take (a.length + n) = a ++ b.take n := by
  rw [List.append_assoc, List.take_append_eq_append_take]
  have h1 : a.take (a.length + n) = a := List.take_of_length_le (by omega)
  have h2 : a.length + n - a.length = n := by omega
  rw [h1, h2, List.take_append_eq_append_take, Nat.sub_eq_zero_of_le hn,
    List.take_zero, List.append_nil]

theorem take_len_plus (a b : List Event) (n : Nat) (h : b.length = n) :
    (a ++ b).take (a.length + n) = a ++ b := by
  subst h
  rw [← List.length_append]
  exact List.take_length _

/-- Claim C8: when the `multite_init` flag is truthy, `fit_multite` creates
the dedicated `init` sub-namespace and runs `fit_init` on it immediately
after the diff/reorder normalisation, and on a successful initialisation
fit it reads back the resulting parameter-distribution summary
`initial_mvn`; when the flag is falsy, no initialisation artifact is
produced: the new trace has no `init` namespace creation, no `fit_init`
invocation and no summary read, and the `init` sub-namespace exists
afterwards only if it already existed before. -/
theorem fit_multite_init_optional (c : Collab) (m : M) (p : WPath) (d : ASLData)
    (h1 : wsGetattr m.st p "asldata" = .data d)
    (h2 : d.is_var_repeats = false)
    (hfi : ∀ st k, wsGetattr ((c.fit_init st (p ++ ["init"])).1) p k = wsGetattr st p k) :
    ((wsGetattr m.st p "multite_init").truthy = true →
      (fit_multite c m p).1.tr.take (m.tr.length + 5) =
        m.tr ++ [.log "\nPerforming multi-TE model fitting:\n", .varRepeatsCheck false,
          .diffReorder d ((d.diff).reorder "etr"), .subCreate (p ++ ["init"]),
          .fitInitCall (p ++ ["init"])] ∧
      (∀ st', c.fit_init (wsSubSt (wsSetattrSt m.st p "asldata"
          (.data ((d.diff).reorder "etr"))) p "init") (p ++ ["init"]) = (st', .ok ()) →
        (fit_multite c m p).1.tr.take (m.tr.length + 6) =
          m.tr ++ [.log "\nPerforming multi-TE model fitting:\n", .varRepeatsCheck false,
            .diffReorder d ((d.diff).reorder "etr"), .subCreate (p ++ ["init"]),
            .fitInitCall (p ++ ["init"]),
            .initMvnRead (wsGetattr st' (p ++ ["init"]) "initial_mvn")])) ∧
    ((wsGetattr m.st p "multite_init").truthy = false →
      ((fit_multite c m p).1.tr.drop m.tr.length).all (noInitEvent (p ++ ["init"])) = true ∧
      (p ++ ["init"] ∈ (fit_multite c m p).1.st.subsCreated ↔
        p ++ ["init"] ∈ m.st.subsCreated)) := by
  unfold fit_multite
  unfold_let
  simp only [wsLog_st, h1, h2, Bool.false_eq_true, if_false]
  constructor
  · intro hfl
    have hfl' : (wsGetattr (wsSetattrSt m.st p "asldata"
        (.data ((d.diff).reorder "etr"))) p "multite_init").truthy = true := by
      rw [wsGetattr_setattr_ne _ _ _ _ _ _ (by decide)]
      exact hfl
    rcases hfr : c.fit_init (wsSubSt (wsSetattrSt m.st p "asldata"
        (.data ((d.diff).reorder "etr"))) p "init") (p ++ ["init"]) with ⟨st', rr⟩
    cases rr with
    | error e =>
      rw [fit_multite_init_flag_true_err c _ p st' e hfl' hfr]
      constructor
      · have heq : (emit (wsSetattr (emit (wsLog m "\nPerforming multi-TE model fitting:\n")
            (.varRepeatsCheck false)) p "asldata" (.data ((d.diff).reorder "etr")))
            (.diffReorder d ((d.diff).reorder "etr"))).tr ++
            [Event.subCreate (p ++ ["init"]), Event.fitInitCall (p ++ ["init"])] =
            m.tr ++ [.log "\nPerforming multi-TE model fitting:\n", .varRepeatsCheck false,
              .diffReorder d ((d.diff).reorder "etr"), .subCreate (p ++ ["init"]),
              .fitInitCall (p ++ ["init"])] := by
          simp
        rw [heq]
        exact take_len_plus m.tr _ 5 rfl
      · intro st'' h
        simp at h
    | ok u =>
      cases u
      have hlook : wsGetattr st' p "init" = .ws (p ++ ["init"]) := by
        have hh := hfi (wsSubSt (wsSetattrSt m.st p "asldata"
          (.data ((d.diff).reorder "etr"))) p "init") "init"
        rw [hfr] at hh
        rw [hh, wsGetattr_sub_self]
      rw [fit_multite_init_flag_true_ok c _ p st' hfl' hfr hlook]
      have hTr := trPure_fit_multite_fabber c
        (⟨st', (emit (wsSetattr (emit (wsLog m "\nPerforming multi-TE model fitting:\n")
          (.varRepeatsCheck false)) p "asldata" (.data ((d.diff).reorder "etr")))
          (.diffReorder d ((d.diff).reorder "etr"))).tr ++
          [.subCreate (p ++ ["init"]), .fitInitCall (p ++ ["init"]),
           .initMvnRead (wsGetattr st' (p ++ ["init"]) "initial_mvn")]⟩ : M) p
      obtain ⟨t, htr, _⟩ := hTr
      have heq : (fit_multite_fabber c
          (⟨st', (emit (wsSetattr (emit (wsLog m "\nPerforming multi-TE model fitting:\n")
            (.varRepeatsCheck false)) p "asldata" (.data ((d.diff).reorder "etr")))
            (.diffReorder d ((d.diff).reorder "etr"))).tr ++
            [.subCreate (p ++ ["init"]), .fitInitCall (p ++ ["init"]),
             .initMvnRead (wsGetattr st' (p ++ ["init"]) "initial_mvn")]⟩ : M) p).1.tr =
          m.tr ++ [.log "\nPerforming multi-TE model fitting:\n", .varRepeatsCheck false,
            .diffReorder d ((d.diff).reorder "etr"), .subCreate (p ++ ["init"]),
            .fitInitCall (p ++ ["init"]),
            .initMvnRead (wsGetattr st' (p ++ ["init"]) "initial_mvn")] ++ t := by
        rw [htr]
        simp
      constructor
      · rw [heq, take_append_le _ _ _ 5 (by norm_num)]
        rfl
      · intro st'' h
        have hst : st' = st'' := by
          injection h with ha hb
        subst hst
        rw [heq, take_append_le _ _ _ 6 (by norm_num)]
        rfl
  · intro hfl
    have hfl' : (wsGetattr (wsSetattrSt m.st p "asldata"
        (.data ((d.diff).reorder "etr"))) p "multite_init").truthy = false := by
      rw [wsGetattr_setattr_ne _ _ _ _ _ _ (by decide)]
      exact hfl
    rw [fit_multite_init_flag_false c _ p hfl']
    have hmain := fit_multite_fabber_noInit c
      (emit (wsSetattr (emit (wsLog m "\nPerforming multi-TE model fitting:\n")
        (.varRepeatsCheck false)) p "asldata" (.data ((d.diff).reorder "etr")))
        (.diffReorder d ((d.diff).reorder "etr"))) p (p ++ ["init"])
      (fun q hc => absurd (append_last_eq hc) (by decide))
    obtain ⟨⟨t, htr, hall⟩, hsubs⟩ := hmain
    constructor
    · have heq : (fit_multite_fabber c
          (emit (wsSetattr (emit (wsLog m "\nPerforming multi-TE model fitting:\n")
            (.varRepeatsCheck false)) p "asldata" (.data ((d.diff).reorder "etr")))
            (.diffReorder d ((d.diff).reorder "etr"))) p).1.tr =
          m.tr ++ ([.log "\nPerforming multi-TE model fitting:\n", .varRepeatsCheck false,
            .diffReorder d ((d.diff).reorder "etr")] ++ t) := by
        rw [htr]
        simp
      rw [heq, List.drop_left]
      simp [List.all_append, noInitEvent, hall]
    · exact hsubs

/-- Claim C10: `fit_multite` overwrites the `asldata` attribute of its
workspace in place: for a uniform-repeats dataset in the canonical
pipeline shape, reading `asldata` from the workspace after the call yields
the differenced and `etr`-reordered dataset, and, whenever the dataset has
any volumes, the original undifferenced dataset is no longer reachable
through that attribute. -/
theorem fit_multite_asldata_overwrite (c : Collab) (m : M) (p : WPath) (d : ASLData)
    (h1 : wsGetattr m.st p "asldata" = .data d)
    (h2 : d.is_var_repeats = false)
    (h3 : wsGetattr m.st p "multite" = .ws p)
    (hfi : ∀ st k, wsGetattr ((c.fit_init st (p ++ ["init"])).1) p k = wsGetattr st p k) :
    wsGetattr (fit_multite c m p).1.st p "asldata" = .data ((d.diff).reorder "etr") ∧
    (d.vols ≠ [] → wsGetattr (fit_multite c m p).1.st p "asldata" ≠ .data d) := by
  have main : wsGetattr (fit_multite c m p).1.st p "asldata" =
      .data ((d.diff).reorder "etr") := by
    unfold fit_multite
    unfold_let
    simp only [wsLog_st, h1, h2, Bool.false_eq_true, if_false]
    have hs1a : wsGetattr (wsSetattrSt m.st p "asldata" (.data ((d.diff).reorder "etr")))
        p "asldata" = .data ((d.diff).reorder "etr") :=
      wsGetattr_setattr_self m.st p "asldata" _
    have hs1m : wsGetattr (wsSetattrSt m.st p "asldata" (.data ((d.diff).reorder "etr")))
        p "multite" = .ws p := by
      rw [wsGetattr_setattr_ne _ _ _ _ _ _ (by decide)]
      exact h3
    cases hflag : (wsGetattr (wsSetattrSt m.st p "asldata"
        (.data ((d.diff).reorder "etr"))) p "multite_init").truthy with
    | false =>
      rw [fit_multite_init_flag_false c _ p hflag]
      rw [fit_multite_fabber_asldata c _ p hs1m]
      exact hs1a
    | true =>
      rcases hfr : c.fit_init (wsSubSt (wsSetattrSt m.st p "asldata"
          (.data ((d.diff).reorder "etr"))) p "init") (p ++ ["init"]) with ⟨st', rr⟩
      have hst' : ∀ k, wsGetattr st' p k =
          wsGetattr (wsSubSt (wsSetattrSt m.st p "asldata"
            (.data ((d.diff).reorder "etr"))) p "init") p k := by
        intro k
        have hh := hfi (wsSubSt (wsSetattrSt m.st p "asldata"
          (.data ((d.diff).reorder "etr"))) p "init") k
        rw [hfr] at hh
        exact hh
      cases rr with
      | error e =>
        rw [fit_multite_init_flag_true_err c _ p st' e hflag hfr]
        show wsGetattr st' p "asldata" = _
        rw [ hst' "asldata", wsGetattr_sub_ne _ _ _ _ _ (by decide)]
        exact hs1a
      | ok u =>
        cases u
        have hlook : wsGetattr st' p "init" = .ws (p ++ ["init"]) := by
          rw [ hst' "init", wsGetattr_sub_self]
        rw [fit_multite_init_flag_true_ok c _ p st' hflag hfr hlook]
        have hm' : wsGetattr st' p "multite" = .ws p := by
          rw [ hst' "multite", wsGetattr_sub_ne _ _ _ _ _ (by decide)]
          exact hs1m
        rw [fit_multite_fabber_asldata c _ p hm']
        show wsGetattr st' p "asldata" = _
        rw [ hst' "asldata", wsGetattr_sub_ne _ _ _ _ _ (by decide)]
        exact hs1a
  refine ⟨main, fun hv heq => ?_⟩
  rw [main] at heq
  injection heq with h'
  exact diff_reorder_ne_self d hv "etr" h'

/-- Witness for C8: with the flag enabled the example run creates the
`init` namespace, invokes `fit_init` and captures the summary produced by
the example initialisation fit; with the flag unset the example run shows
no initialisation artifact in trace or namespace list. -/
theorem fit_multite_init_optional_witness :
    ((fit_multite exCollab ⟨exStInit, []⟩ ["multite"]).1.tr.take 5 =
      [.log "\nPerforming multi-TE model fitting:\n", .varRepeatsCheck false,
       .diffReorder exData ((exData.diff).reorder "etr"),
       .subCreate ["multite", "init"], .fitInitCall ["multite", "init"]]) ∧
    ((fit_multite exCollab ⟨exStInit, []⟩ ["multite"]).1.tr.take 6 =
      [.log "\nPerforming multi-TE model fitting:\n", .varRepeatsCheck false,
       .diffReorder exData ((exData.diff).reorder "etr"),
       .subCreate ["multite", "init"], .fitInitCall ["multite", "init"],
       .initMvnRead (.img "mvn")]) ∧
    (((fit_multite exCollab ⟨exSt, []⟩ ["multite"]).1.tr.drop 0).all
      (noInitEvent ["multite", "init"]) = true) ∧
    (["multite", "init"] ∈ (fit_multite exCollab ⟨exSt, []⟩ ["multite"]).1.st.subsCreated ↔
      ["multite", "init"] ∈ exSt.subsCreated) :=
  ⟨((fit_multite_init_optional exCollab ⟨exStInit, []⟩ ["multite"] exData rfl rfl
      (fun st k => wsGetattr_setattr_longer st (["multite"] ++ ["init"]) "initial_mvn"
        (.img "mvn") ["multite"] k (by decide))).1 rfl).1,
   ((fit_multite_init_optional exCollab ⟨exStInit, []⟩ ["multite"] exData rfl rfl
      (fun st k => wsGetattr_setattr_longer st (["multite"] ++ ["init"]) "initial_mvn"
        (.img "mvn") ["multite"] k (by decide))).1 rfl).2
      (wsSetattrSt (wsSubSt (wsSetattrSt exStInit ["multite"] "asldata"
        (.data ((exData.diff).reorder "etr"))) ["multite"] "init")
        (["multite"] ++ ["init"]) "initial_mvn" (.img "mvn")) rfl,
   ((fit_multite_init_optional exCollab ⟨exSt, []⟩ ["multite"] exData rfl rfl
      (fun st k => wsGetattr_setattr_longer st (["multite"] ++ ["init"]) "initial_mvn"
        (.img "mvn") ["multite"] k (by decide))).2 rfl).1,
   ((fit_multite_init_optional exCollab ⟨exSt, []⟩ ["multite"] exData rfl rfl
      (fun st k => wsGetattr_setattr_longer st (["multite"] ++ ["init"]) "initial_mvn"
        (.img "mvn") ["multite"] k (by decide))).2 rfl).2⟩

/-- Witness for C10: after the example run the workspace exposes exactly
the differenced and reordered dataset under `asldata`, and no longer the
original dataset. -/
theorem fit_multite_asldata_overwrite_witness :
    wsGetattr (fit_multite exCollab ⟨exSt, []⟩ ["multite"]).1.st ["multite"] "asldata" =
      .data ((exData.diff).reorder "etr") ∧
    wsGetattr (fit_multite exCollab ⟨exSt, []⟩ ["multite"]).1.st ["multite"] "asldata" ≠
      .data exData :=
  ⟨(fit_multite_asldata_overwrite exCollab ⟨exSt, []⟩ ["multite"] exData rfl rfl rfl
      (fun st k => wsGetattr_setattr_longer st (["multite"] ++ ["init"]) "initial_mvn"
        (.img "mvn") ["multite"] k (by decide))).1,
   (fit_multite_asldata_overwrite exCollab ⟨exSt, []⟩ ["multite"] exData rfl rfl rfl
      (fun st k => wsGetattr_setattr_longer st (["multite"] ++ ["init"]) "initial_mvn"
        (.img "mvn") ["multite"] k (by decide))).2 (by decide)⟩
